import Mathlib

/-!
Verification development for the Filmylane paste-classification pipeline
(`src/lib/paste-classifier.ts`) and its session memory store
(`src/lib/context-memory-manager.ts`).

Strings are modelled as Lean `String`s; all character-level algorithms work
on `List Char` (code points).  JavaScript regular expressions from the source
are translated into explicit character-list scanners; each scanner is named
after (and documented with) the regex it implements.  JavaScript `length`
counts UTF-16 code units; every character that the classifier manipulates is
in the Basic Multilingual Plane, where code units and code points coincide,
so `List.length` over `Char` is used.
-/

namespace Filmylane

/-! ### Character classes -/

/-- JavaScript `\s` (also the set trimmed by `String.prototype.trim`). -/
def isJsWs (c : Char) : Bool :=
  let n := c.toNat
  (9 ≤ n && n ≤ 13) || n = 32 || n = 0xa0 || n = 0x1680 ||
  (0x2000 ≤ n && n ≤ 0x200a) || n = 0x2028 || n = 0x2029 ||
  n = 0x202f || n = 0x205f || n = 0x3000 || n = 0xfeff

/-- Arabic tashkeel stripped by `normalizeLine`: `[ً-ٰٟ]`. -/
def isDiacritic (c : Char) : Bool :=
  let n := c.toNat
  (0x64b ≤ n && n ≤ 0x65f) || n = 0x670

/-- The class `[‏‎﻿\t]` removed globally by `normalizeLine`. -/
def isInvisOrTab (c : Char) : Bool :=
  let n := c.toNat
  n = 0x200f || n = 0x200e || n = 0xfeff || n = 9

/-- The Arabic Unicode block `[؀-ۿ]`. -/
def isArabicBlock (c : Char) : Bool :=
  0x600 ≤ c.toNat && c.toNat ≤ 0x6ff

/-- ASCII digit `[0-9]`. -/
def isLatinDigit (c : Char) : Bool :=
  48 ≤ c.toNat && c.toNat ≤ 57

/-- Arabic-Indic digit `[٠-٩]` = `[٠-٩]`. -/
def isArabicDigit (c : Char) : Bool :=
  0x660 ≤ c.toNat && c.toNat ≤ 0x669

/-- Digit of either script, as in `[0-9٠-٩]`. -/
def isAnyDigit (c : Char) : Bool :=
  isLatinDigit c || isArabicDigit c

/-- JavaScript `\w`, i.e. `[A-Za-z0-9_]` (Arabic letters are NOT `\w`). -/
def isJsWord (c : Char) : Bool :=
  let n := c.toNat
  (65 ≤ n && n ≤ 90) || (97 ≤ n && n ≤ 122) || isLatinDigit c || n = 95

/-- The bullet glyph class that INCLUDES the ASCII hyphen, used by
`stripLeadingBullets` and by the bullet strip inside `normalizeLine`:
`[•·∙⋅●○◦■□▪▫◆◇–—−‒―‣⁃*+-]`. -/
def isBulletHyph (c : Char) : Bool :=
  let n := c.toNat
  n = 0x2022 || n = 0xb7 || n = 0x2219 || n = 0x22c5 || n = 0x25cf ||
  n = 0x25cb || n = 0x25e6 || n = 0x25a0 || n = 0x25a1 || n = 0x25aa ||
  n = 0x25ab || n = 0x25c6 || n = 0x25c7 || n = 0x2013 || n = 0x2014 ||
  n = 0x2212 || n = 0x2012 || n = 0x2015 || n = 0x2023 || n = 0x2043 ||
  n = 42 || n = 43 || n = 45

/-- The bullet glyph class WITHOUT the ASCII hyphen, used by
`buildContext`'s `startsWithBullet` and by the bullet re-strip in
`classifyWithContext`: `[•·∙⋅●○◦■□▪▫◆◇–—−‒―‣⁃*+]`. -/
def isBulletNoHyph (c : Char) : Bool :=
  isBulletHyph c && c.toNat ≠ 45

/-- The prefix class `[\s‎‏؜﻿]` preceding bullets. -/
def isWsOrMark (c : Char) : Bool :=
  isJsWs c || c.toNat = 0x200e || c.toNat = 0x200f || c.toNat = 0x61c

/-- Lower-case an ASCII letter (JavaScript `toLowerCase` restricted to the
characters the classifier compares; Arabic letters are caseless). -/
def lowerCh (c : Char) : Char :=
  if 65 ≤ c.toNat && c.toNat ≤ 90 then Char.ofNat (c.toNat + 32) else c

/-! ### List-of-characters utilities -/

/-- Drop JavaScript whitespace from both ends (JS `String.prototype.trim`). -/
def trimJs (cs : List Char) : List Char :=
  ((cs.dropWhile isJsWs).reverse.dropWhile isJsWs).reverse

/-- Is `pat` a prefix of `cs` (character lists, exact)? -/
def listPref : List Char → List Char → Bool
  | [], _ => true
  | _ :: _, [] => false
  | p :: ps, c :: cs => p == c && listPref ps cs

/-- Is `pat` a prefix of `cs`, comparing ASCII letters case-insensitively
(regex `/i` flag)? -/
def listPrefCI : List Char → List Char → Bool
  | [], _ => true
  | _ :: _, [] => false
  | p :: ps, c :: cs => lowerCh p == lowerCh c && listPrefCI ps cs

/-- Does `pat` occur anywhere in `hay` (substring test, as JS
`String.prototype.includes` / an unanchored regex literal)? -/
def containsSeq (hay pat : List Char) : Bool :=
  match hay with
  | [] => pat.isEmpty
  | _ :: t => listPref pat hay || containsSeq t pat

/-- Split on runs of JavaScript whitespace, discarding empty pieces
(JS `str.split(/\s+/).filter(Boolean)` on a trimmed string; on an
untrimmed string JS also yields one leading empty piece, which every
caller filters out or never indexes past). -/
def splitWs (cs : List Char) : List (List Char) :=
  let p := cs.foldr
    (fun c (acc : List (List Char) × List Char) =>
      if isJsWs c then
        if acc.2.isEmpty then (acc.1, []) else (acc.2 :: acc.1, [])
      else (acc.1, c :: acc.2))
    ([], [])
  if p.2.isEmpty then p.1 else p.2 :: p.1

/-- Split on a single separator character, keeping empty pieces
(JS `str.split(sep)` for a one-character separator). -/
def splitCh (sep : Char) (cs : List Char) : List (List Char) :=
  let p := cs.foldr
    (fun c (acc : List (List Char) × List Char) =>
      if c == sep then (acc.2 :: acc.1, []) else (acc.1, c :: acc.2))
    ([], [])
  p.2 :: p.1

/-- Concatenate with a single `'-'` between pieces (JS `Array.join("-")`). -/
def joinDash : List (List Char) → List Char
  | [] => []
  | [x] => x
  | x :: y :: t => x ++ '-' :: joinDash (y :: t)

/-- Remove every occurrence of the characters in `bad` (JS global replace
of a character class by the empty string). -/
def removeAll (bad : List Char) (cs : List Char) : List Char :=
  cs.filter (fun c => !(bad.contains c))

/-! ### Spacing rules (`getSpacingMarginTop`) -/

/-- `getSpacingMarginTop` from `paste-classifier.ts`: given the previous and
current block format, returns `"0"` (forced no gap), `"14pt"` (paragraph
gap), or `""` (no explicit value, CSS default). -/
def getSpacingMarginTop (previousFormat currentFormat : String) : String :=
  if previousFormat = "basmala" then "0"
  else if previousFormat = "character" &&
      (currentFormat = "dialogue" || currentFormat = "parenthetical") then "0"
  else if previousFormat = "parenthetical" && currentFormat = "dialogue" then "0"
  else if previousFormat = "scene-header-2" &&
      currentFormat = "scene-header-3" then "14pt"
  else if previousFormat = "scene-header-3" && currentFormat = "action" then "14pt"
  else if previousFormat = "action" &&
      (currentFormat = "action" || currentFormat = "character" ||
       currentFormat = "transition") then "14pt"
  else if previousFormat = "dialogue" &&
      (currentFormat = "character" || currentFormat = "action" ||
       currentFormat = "transition") then "14pt"
  else if previousFormat = "parenthetical" &&
      (currentFormat = "character" || currentFormat = "action" ||
       currentFormat = "transition") then "14pt"
  else if previousFormat = "transition" &&
      (currentFormat = "scene-header-1" ||
       currentFormat = "scene-header-top-line") then "14pt"
  else ""

/-! ### Normalizer -/

/-- Core of the bullet-strip regexes
`^[\s‎‏؜﻿]*[bullets]+` (optionally followed by `\s*`): if, after the
leading whitespace/mark run, the first character is a bullet, remove the
whole matched prefix; otherwise the string is unchanged (no match). -/
def stripBulletCore (trailWs : Bool) (bullet : Char → Bool)
    (cs : List Char) : List Char :=
  let rest := cs.dropWhile isWsOrMark
  match rest with
  | [] => cs
  | c :: _ =>
    if bullet c then
      let r2 := rest.dropWhile bullet
      if trailWs then r2.dropWhile isJsWs else r2
    else cs

/-- `stripLeadingBullets`: strip `^[\s‎‏؜﻿]*[•·∙⋅●○◦■□▪▫◆◇–—−‒―‣⁃*+-]+\s*`. -/
def stripLeadingBullets (input : String) : String :=
  ⟨stripBulletCore true isBulletHyph input.data⟩

/-- Strip `^[\s‎‏؜﻿]*[bullets]` — the whitespace/mark prefix plus a SINGLE
bullet character (the re-strip inside `classifyWithContext` has no `+` on
its bullet class); no match leaves the string unchanged. -/
def stripBulletOnce (bullet : Char → Bool) (cs : List Char) : List Char :=
  let rest := cs.dropWhile isWsOrMark
  match rest with
  | [] => cs
  | c :: t => if bullet c then t else cs

/-- Character-list body of `normalizeLine`: strip diacritics, strip
`[‏‎﻿\t]`, strip a leading bullet prefix (hyphen included, no trailing
whitespace eaten), then trim. -/
def normChars (cs : List Char) : List Char :=
  trimJs (stripBulletCore false isBulletHyph
    ((cs.filter (fun c => !isDiacritic c)).filter (fun c => !isInvisOrTab c)))

/-- `normalizeLine` from `paste-classifier.ts`. -/
def normalizeLine (input : String) : String :=
  ⟨normChars input.data⟩

/-- `hasSentencePunctuation`: `/[.!?،؛]/.test(line)`. -/
def hasSentencePunctuation (line : String) : Bool :=
  line.data.any (fun c => c = '.' || c = '!' || c = '?' || c = '،' || c = '؛')

/-! ### Basmala -/

/-- `isBasmala`: after removing brackets `[{}()[\]]` and the invisible marks
`[‏‎﻿]`, trimming, and normalizing, keep only Arabic-block characters and
whitespace, then require the three fragments بسم, الله and (الرحمن or
الرحي) to occur. -/
def isBasmala (line : String) : Bool :=
  let cleaned := trimJs (removeAll ['{', '}', '(', ')', '[', ']']
    (line.data.filter (fun c =>
      !(c.toNat = 0x200f || c.toNat = 0x200e || c.toNat = 0xfeff))))
  let normalized := normChars cleaned
  let compact := normalized.filter (fun c => isArabicBlock c || isJsWs c)
  containsSeq compact "بسم".data && containsSeq compact "الله".data &&
    (containsSeq compact "الرحمن".data || containsSeq compact "الرحي".data)

/-! ### Scene header logic -/

/-- Does the scene-number cue match at this exact position:
`(?:مشهد|scene)\s*[0-9٠-٩]+` with `/i` on the Latin word? -/
def sceneNumAt (cs : List Char) : Bool :=
  let arab := "مشهد".data
  let latin := "scene".data
  let afterCue (rest : List Char) : Bool :=
    match rest.dropWhile isJsWs with
    | [] => false
    | c :: _ => isAnyDigit c
  (listPref arab cs && afterCue (cs.drop arab.length)) ||
  (listPrefCI latin cs && afterCue (cs.drop latin.length))

/-- Unanchored search for `SCENE_NUMBER_RE = /(?:مشهد|scene)\s*([0-9٠-٩]+)/i`. -/
def sceneNumSearch : List Char → Bool
  | [] => false
  | c :: t => sceneNumAt (c :: t) || sceneNumSearch t

/-- Anchored test for `SCENE_NUMBER_EXACT_RE = /^\s*(?:مشهد|scene)\s*[0-9٠-٩]+/i`. -/
def sceneNumExact (cs : List Char) : Bool :=
  sceneNumAt (cs.dropWhile isJsWs)

/-- `isSceneHeader1`: the normalized line contains the scene-number cue. -/
def isSceneHeader1 (line : String) : Bool :=
  sceneNumSearch (normalizeLine line).data

/-- Join word lists with single spaces (collapse `\s+` to one space). -/
def joinSpaces : List (List Char) → List Char
  | [] => []
  | [x] => x
  | x :: y :: t => x ++ ' ' :: joinSpaces (y :: t)

/-- `isSceneHeader2`: normalize, replace dash variants `[-–—]` by spaces,
collapse whitespace, trim; then require a time-of-day word
(`نهار|ليل|صباح|مساء|فجر`) and an interior/exterior word (`داخلي|خارجي`). -/
def isSceneHeader2 (line : String) : Bool :=
  let dashed := (normalizeLine line).data.map (fun c =>
    if c = '-' || c.toNat = 0x2013 || c.toNat = 0x2014 then ' ' else c)
  let collapsed := joinSpaces (splitWs dashed)
  let hasTime := containsSeq collapsed "نهار".data ||
    containsSeq collapsed "ليل".data || containsSeq collapsed "صباح".data ||
    containsSeq collapsed "مساء".data || containsSeq collapsed "فجر".data
  let hasLocation := containsSeq collapsed "داخلي".data ||
    containsSeq collapsed "خارجي".data
  hasTime && hasLocation

/-- `isCompleteSceneHeader`: the normalized line starts with the
scene-number cue and also satisfies `isSceneHeader2`. -/
def isCompleteSceneHeader (line : String) : Bool :=
  let normalized := normalizeLine line
  sceneNumExact normalized.data && isSceneHeader2 normalized

/-- `splitSceneHeader`: parse
`/^\s*((?:مشهد|scene)\s*[0-9٠-٩]+)\s*[-–—:،]?\s*(.*)/i` on the RAW line
(no normalization), returning the trimmed number segment and trimmed
description, or `none` when the anchored prefix does not match. -/
def splitSceneHeader (line : String) : Option (String × String) :=
  let cs := line.data.dropWhile isJsWs
  let tryCue : Option (List Char × List Char) :=
    if listPref "مشهد".data cs then
      some (cs.take 4, cs.drop 4)
    else if listPrefCI "scene".data cs then
      some (cs.take 5, cs.drop 5)
    else none
  match tryCue with
  | none => none
  | some (cue, rest1) =>
    let ws1 := rest1.takeWhile isJsWs
    let rest2 := rest1.dropWhile isJsWs
    let digits := rest2.takeWhile isAnyDigit
    if digits.isEmpty then none
    else
      let number := trimJs (cue ++ ws1 ++ digits)
      let rest3 := (rest2.dropWhile isAnyDigit).dropWhile isJsWs
      let rest4 :=
        match rest3 with
        | [] => ([] : List Char)
        | c :: t =>
          if c = '-' || c.toNat = 0x2013 || c.toNat = 0x2014 ||
             c = ':' || c = '،' then t.dropWhile isJsWs
          else c :: t
      some (⟨number⟩, ⟨trimJs rest4⟩)

/-- `isTransition`: the normalized line starts with
`^(قطع|اختفاء|تحول|انتقال|fade|cut|dissolve|wipe)/i`. -/
def isTransition (line : String) : Bool :=
  let cs := (normalizeLine line).data
  listPref "قطع".data cs || listPref "اختفاء".data cs ||
  listPref "تحول".data cs || listPref "انتقال".data cs ||
  listPrefCI "fade".data cs || listPrefCI "cut".data cs ||
  listPrefCI "dissolve".data cs || listPrefCI "wipe".data cs

/-! ### Action logic -/

/-- `ACTION_VERB_LIST` from `paste-classifier.ts`, verbatim. -/
def ACTION_VERB_LIST : String :=
  "يدخل|يخرج|ينظر|يرفع|تبتسم|ترقد|تقف|يبسم|يضع|يقول|تنظر|تربت|تقوم|يشق|تشق|تضرب|يسحب|يلتفت|يقف|يجلس|تجلس|يجري|تجري|يمشي|تمشي|يركض|تركض|يصرخ|اصرخ|يبكي|تبكي|يضحك|تضحك|يغني|تغني|يرقص|ترقص|يأكل|تأكل|يشرب|تشرب|ينام|تنام|يستيقظ|تستيقظ|يكتب|تكتب|يقرأ|تقرأ|يسمع|تسمع|يشم|تشم|يلمس|تلمس|يأخذ|تأخذ|يعطي|تعطي|يفتح|تفتح|يغلق|تغلق|يبدأ|تبدأ|ينتهي|تنتهي|يذهب|تذهب|يعود|تعود|يأتي|تأتي|يموت|تموت|يحيا|تحيا|يقاتل|تقاتل|ينصر|تنتصر|يخسر|تخسر|يرسم|ترسم|يصمم|تصمم|يخطط|تخطط|يقرر|تقرر|يفكر|تفكر|يتذكر|تتذكر|يحاول|تحاول|يستطيع|تستطيع|يريد|تريد|يحتاج|تحتاج|يبحث|تبحث|يجد|تجد|يفقد|تفقد|يحمي|تحمي|يراقب|تراقب|يخفي|تخفي|يكشف|تكشف|يكتشف|تكتشف|يعرف|تعرف|يتعلم|تتعلم|يعلم|تعلم|يوجه|توجه|يسافر|تسافر|يرحل|ترحل|يبقى|تبقى|ينتقل|تنتقل|يتغير|تتغير|ينمو|تنمو|يتطور|تتطور|يواجه|تواجه|يحل|تحل|يفشل|تفشل|ينجح|تنجح|يحقق|تحقق|ينهي|تنهي|يوقف|توقف|يستمر|تستمر|ينقطع|تنقطع|يرتبط|ترتبط|ينفصل|تنفصل|يتزوج|تتزوج|يطلق|تطلق|يولد|تولد|يكبر|تكبر|يشيخ|تشيخ|يمرض|تمرض|يشفي|تشفي|يصاب|تصاب|يتعافى|تتعافى|يقتل|تقتل|يُقتل|تُقتل|يختفي|تختفي|يظهر|تظهر|يختبئ|تختبئ|يطلب|تطلب|يأمر|تأمر|يمنع|تمنع|يسمح|تسمح|يوافق|توافق|يرفض|ترفض|يعتذر|تعتذر|يشكر|تشكر|يحيي|تحيي|يودع|تودع|يجيب|تجيب|يسأل|تسأل|يصيح|صيح|يهمس|همس|يصمت|صمت|يتكلم|تكلم|ينادي|تنادي|يحكي|تحكي|يروي|تروي|يقص|تقص|يتنهد|تتنهد|يئن|تئن"

/-- `EXTRA_ACTION_VERBS` from `paste-classifier.ts`, verbatim. -/
def EXTRA_ACTION_VERBS : String :=
  "نرى|نسمع|نلاحظ|نقترب|نبتعد|ننتقل|ترفع|ينهض|تنهض|تقتحم|يقتحم|يتبادل|يبتسم|يبدؤون|تفتح|يفتح|تدخل|يُظهر|يظهر|تظهر"

/-- `ACTION_VERB_SET`: the pipe-joined lists split on `"|"`, trimmed, with
empty entries dropped (kept as a list; membership is what matters). -/
def ACTION_VERB_SET : List (List Char) :=
  ((splitCh '|' (ACTION_VERB_LIST ++ "|" ++ EXTRA_ACTION_VERBS).data).map
    trimJs).filter (fun w => !w.isEmpty)

/-- `isActionVerbStart`: the first whitespace-delimited token, with the
marks `[‎‏؜]` removed and restricted to Arabic-block characters, is in the
verb set, either directly or after removing a single leading particle
و/ف/ل. -/
def isActionVerbStart (line : String) : Bool :=
  let firstToken := (trimJs line.data).takeWhile (fun c => !isJsWs c)
  let normalized := (firstToken.filter (fun c =>
      !(c.toNat = 0x200e || c.toNat = 0x200f || c.toNat = 0x61c))).filter
    isArabicBlock
  if normalized.isEmpty then false
  else if ACTION_VERB_SET.contains normalized then true
  else
    match normalized with
    | [] => false
    | c :: rest =>
      (c = 'و' || c = 'ف' || c = 'ل') && !rest.isEmpty &&
        ACTION_VERB_SET.contains rest

/-- The tail condition `(?:\s+\S|$)`: either the string ends here, or it
continues with at least one whitespace character and then some
non-whitespace character. -/
def tailWsWord (rest : List Char) : Bool :=
  match rest with
  | [] => true
  | c :: t => isJsWs c && (c :: t).any (fun x => !isJsWs x)

/-- Strip the literal word `w` followed by at least one whitespace
character, returning the remainder after the whitespace run (used for the
optional groups `(?:ثم\s+)?` etc.). -/
def stripTokWs (w : List Char) (cs : List Char) : Option (List Char) :=
  if listPref w cs then
    match cs.drop w.length with
    | [] => none
    | c :: t => if isJsWs c then some ((c :: t).dropWhile isJsWs) else none
  else none

/-- Pattern 1 core after the optional prefixes: `[يت][؀-ۿ]{2,}(?:\s+\S|$)`.
The Arabic run is matched greedily; since the class contains no whitespace,
no shorter run can satisfy the tail, so the greedy run is decisive. -/
def actionPat1Core (cs : List Char) : Bool :=
  match cs with
  | [] => false
  | c :: rest =>
    (c = 'ي' || c = 'ت') &&
      (let run := rest.takeWhile isArabicBlock
       2 ≤ run.length && tailWsWord (rest.drop run.length))

/-- `matchesActionStartPattern`, pattern 1:
`/^\s*(?:ثم\s+)?(?:و(?:هو|هي)\s+)?[يت][؀-ۿ]{2,}(?:\s+\S|$)/`. -/
def actionPat1 (cs : List Char) : Bool :=
  let r0 := cs.dropWhile isJsWs
  let after1 : List (List Char) :=
    r0 :: (match stripTokWs "ثم".data r0 with
           | some r => [r]
           | none => [])
  let after2 : List (List Char) := after1.foldr
    (fun r acc =>
      r :: (match stripTokWs "وهو".data r with
            | some x => [x]
            | none => []) ++
        (match stripTokWs "وهي".data r with
         | some x => [x]
         | none => []) ++ acc)
    []
  after2.any actionPat1Core

/-- `matchesActionStartPattern`, pattern 2:
`/^\s*(?:و|ف|ل)?(?:نرى|نسمع|نلاحظ|نقترب|نبتعد|ننتقل)(?:\s+\S|$)/`. -/
def actionPat2 (cs : List Char) : Bool :=
  let r0 := cs.dropWhile isJsWs
  let starts : List (List Char) :=
    r0 :: (match r0 with
           | c :: t => if c = 'و' || c = 'ف' || c = 'ل' then [t] else []
           | [] => [])
  let verbs := ["نرى", "نسمع", "نلاحظ", "نقترب", "نبتعد", "ننتقل"]
  starts.any (fun r => verbs.any (fun v =>
    listPref v.data r && tailWsWord (r.drop v.data.length)))

/-- `matchesActionStartPattern`, pattern 3:
`/^\s*(?:رأينا|سمعنا|لاحظنا|شاهدنا)(?:\s+\S|$)/`. -/
def actionPat3 (cs : List Char) : Bool :=
  let r0 := cs.dropWhile isJsWs
  let verbs := ["رأينا", "سمعنا", "لاحظنا", "شاهدنا"]
  verbs.any (fun v => listPref v.data r0 && tailWsWord (r0.drop v.data.length))

/-- `matchesActionStartPattern`: any of the three action-opener patterns on
the normalized line. -/
def matchesActionStartPattern (line : String) : Bool :=
  let normalized := (normalizeLine line).data
  actionPat1 normalized || actionPat2 normalized || actionPat3 normalized

/-- `isLikelyAction`: empty/whitespace lines are not action; otherwise an
action-opener pattern or an action-verb start on the normalized line. -/
def isLikelyAction (line : String) : Bool :=
  if (trimJs line.data).isEmpty then false
  else
    let normalized := normalizeLine line
    matchesActionStartPattern normalized || isActionVerbStart normalized

/-! ### Character logic -/

/-- A colon of either width: `[:：]`. -/
def isColonCh (c : Char) : Bool :=
  c = ':' || c.toNat = 0xff1a

/-- Does the character list end with a colon of either width
(JS `trimmed.endsWith(":") || trimmed.endsWith("：")`)? -/
def endsColonCh (cs : List Char) : Bool :=
  match cs.getLast? with
  | some c => isColonCh c
  | none => false

/-- Body class of `CHARACTER_RE`: `[؀-ۿ\s0-9٠-٩]`. -/
def charBodyClass (c : Char) : Bool :=
  isArabicBlock c || isJsWs c || isAnyDigit c

/-- Strip trailing JavaScript whitespace only. -/
def trimTrailWs (cs : List Char) : List Char :=
  (cs.reverse.dropWhile isJsWs).reverse

/-- Full-string test of
`CHARACTER_RE = /^\s*(?:صوت\s+)?[؀-ۿ][؀-ۿ\s0-9٠-٩]{0,30}:?\s*$/`.
After the leading whitespace and the optional `صوت` prefix, the first
character must be Arabic; stripping trailing whitespace and then one
optional final `':'`, the remaining body must be in the class and at most
30 characters long.  Both readings of the optional prefix are tried, as a
backtracking engine would. -/
def charRe (s : String) : Bool :=
  let r0 := s.data.dropWhile isJsWs
  let check (cs : List Char) : Bool :=
    match cs with
    | [] => false
    | a :: rest =>
      isArabicBlock a &&
        (let u := trimTrailWs rest
         let body := if u.getLast? = some ':' then u.dropLast else u
         body.all charBodyClass && body.length ≤ 30)
  check r0 ||
    (match stripTokWs "صوت".data r0 with
     | some r => check r
     | none => false)

/-- `isParenthetical`: `/^[(（].*?[)）]$/` on the trimmed line: at least two
characters, opening at the start, closing at the end. -/
def isParenthetical (line : String) : Bool :=
  let t := trimJs line.data
  2 ≤ t.length &&
    (match t.head? with
     | some c => c = '(' || c.toNat = 0xff08
     | none => false) &&
    (match t.getLast? with
     | some c => c = ')' || c.toNat = 0xff09
     | none => false)

/-- `parseInlineCharacterDialogue`: match
`/^([^:：]{1,60}?)\s*[:：]\s*(.+)$/` on the trimmed line.  The matched colon
is the first colon (ASCII or full-width); the lazy group takes the prefix
up to the colon minus the whitespace gap (at least one character, at most
60).  Both capture groups are trimmed; an empty name or empty dialogue
yields `none`; finally the name must satisfy `CHARACTER_RE` with a colon
appended. -/
def parseInlineCharacterDialogue (line : String) : Option (String × String) :=
  let t := trimJs line.data
  let pre := t.takeWhile (fun c => !isColonCh c)
  if pre.length = t.length then none
  else if pre.isEmpty then none
  else
    let jstar := (trimTrailWs pre).length
    let j := max jstar 1
    if 60 < j then none
    else
      let characterName := trimJs (t.take j)
      let dialogueText := trimJs (t.drop (pre.length + 1))
      if characterName.isEmpty || dialogueText.isEmpty then none
      else if charRe ⟨characterName ++ [':']⟩ then
        some (⟨characterName⟩, ⟨dialogueText⟩)
      else none

/-- The dialogue-block context optionally supplied to `isCharacterLine`. -/
structure CharCtx where
  lastFormat : String
  isInDialogueBlock : Bool
deriving DecidableEq, Repr

/-- Stop words rejected inside the colon-free Arabic-only branch of
`isCharacterLine`. -/
def characterStopWords : List String :=
  ["في", "على", "من", "إلى", "داخل", "خارج", "أمام", "خلف", "تحت", "فوق",
   "بين", "حول", "ثم", "بعد", "قبل", "عندما", "بينما", "مع", "فجأة",
   "وهو", "وهي"]

/-- The extended letter/digit class of the colon-free branch:
`[\s؀-ۿ\dـ٠-٩ݐ-ݿࢠ-ࣿﭐ-﷿ﹰ-￿]` (Arabic block, supplements, presentation
forms, digits, whitespace). -/
def arabicOnlyClass (c : Char) : Bool :=
  let n := c.toNat
  isJsWs c || isArabicBlock c || isLatinDigit c || isArabicDigit c ||
  (0x750 ≤ n && n ≤ 0x77f) || (0x8a0 ≤ n && n ≤ 0x8ff) ||
  (0xfb50 ≤ n && n ≤ 0xfdff) || (0xfe70 ≤ n && n ≤ 0xfeff)

/-- `isCharacterLine` from `paste-classifier.ts`, including the optional
dialogue-block context behaviour. -/
def isCharacterLine (line : String) (context : Option CharCtx) : Bool :=
  let trimmed := trimJs line.data
  if trimmed.isEmpty then false
  else if isCompleteSceneHeader ⟨trimmed⟩ || isTransition ⟨trimmed⟩ ||
      isParenthetical ⟨trimmed⟩ then false
  else
    let normalized := normChars trimmed
    let wordCount := (splitWs normalized).length
    if 5 < wordCount then false
    else if isActionVerbStart ⟨normalized⟩ then false
    else if matchesActionStartPattern ⟨normalized⟩ then false
    else
      let hasColon := trimmed.any isColonCh
      let endsColon := endsColonCh trimmed
      if hasColon && endsColon then true
      else
        let arabicOnlyWithNumbers :=
          !normalized.isEmpty && normalized.all arabicOnlyClass
        if !hasColon && arabicOnlyWithNumbers then
          let tokens := splitWs normalized
          if tokens.length = 0 || 3 < tokens.length then false
          else !(tokens.any (fun t =>
            characterStopWords.any (fun w => w.data = t)))
        else if !hasColon then false
        else
          match context with
          | some c =>
            if c.isInDialogueBlock && c.lastFormat = "character" then
              charRe ⟨trimmed⟩
            else if c.isInDialogueBlock && c.lastFormat = "dialogue" then
              false
            else if c.lastFormat = "action" then charRe ⟨trimmed⟩
            else charRe ⟨trimmed⟩
          | none => charRe ⟨trimmed⟩

/-! ### Context model -/

/-- Derived per-line statistics (`LineContext.stats`). -/
structure LineStats where
  wordCount : Nat
  charCount : Nat
  hasColon : Bool
  hasPunctuation : Bool
  startsWithBullet : Bool
  isShort : Bool
  isLong : Bool
deriving DecidableEq, Repr

/-- Derived structural signals (`LineContext.pattern`). -/
structure LinePattern where
  isInDialogueBlock : Bool
  isInSceneHeader : Bool
  lastSceneDistance : Int
  lastCharacterDistance : Int
deriving DecidableEq, Repr

/-- The `LineContext` assembled by `buildContext`. -/
structure LineContext where
  previousLines : List String
  currentLine : String
  nextLines : List String
  previousTypes : List String
  stats : LineStats
  pattern : LinePattern
deriving DecidableEq, Repr

/-- `buildContext(lines, currentIndex, previousTypes)`. -/
def buildContext (lines : List String) (currentIndex : Nat)
    (previousTypes : List String) : LineContext :=
  let currentLine := (lines.get? currentIndex).getD ""
  let previousLines := (lines.take currentIndex).drop (currentIndex - 3)
  let nextLines := (lines.drop (currentIndex + 1)).take 3
  let trimmedLine := trimJs currentLine.data
  let normalized := normChars currentLine.data
  let stats : LineStats :=
    { wordCount := (splitWs normalized).length
      charCount := trimmedLine.length
      hasColon := trimmedLine.any isColonCh
      hasPunctuation := trimmedLine.any (fun c =>
        c = '.' || c = '!' || c = '?' || c = '،' || c = '؛')
      startsWithBullet :=
        match currentLine.data.dropWhile isWsOrMark with
        | [] => false
        | c :: _ => isBulletNoHyph c
      isShort := trimmedLine.length < 30
      isLong := 100 < trimmedLine.length }
  let lastType := (previousTypes.getLast?).getD ""
  let isInDialogueBlock := (previousTypes.reverse.take 3).any (fun t =>
    t = "character" || t = "dialogue" || t = "parenthetical")
  let isInSceneHeader := lastType = "scene-header-top-line" ||
    lastType = "scene-header-1" || lastType = "scene-header-2"
  let lastSceneDistance : Int :=
    match previousTypes.reverse.findIdx? (fun t =>
      containsSeq t.data "scene-header".data) with
    | some k => (k : Int)
    | none => -1
  let lastCharacterDistance : Int :=
    match previousTypes.reverse.findIdx? (fun t => t = "character") with
    | some k => (k : Int)
    | none => -1
  { previousLines := previousLines
    currentLine := currentLine
    nextLines := nextLines
    previousTypes := previousTypes
    stats := stats
    pattern :=
      { isInDialogueBlock := isInDialogueBlock
        isInSceneHeader := isInSceneHeader
        lastSceneDistance := lastSceneDistance
        lastCharacterDistance := lastCharacterDistance } }

/-! ### Scene-header-3 and likely-character heuristics -/

/-- Strip the suffix matched by `/:+\s*$/` (a final colon run plus trailing
whitespace); if there is no trailing colon run, the string is unchanged. -/
def stripTrailColons (cs : List Char) : List Char :=
  let r1 := cs.reverse.dropWhile isJsWs
  match r1 with
  | [] => cs
  | c :: _ =>
    if c = ':' then (r1.dropWhile (fun x => x = ':')).reverse else cs

/-- The closed `KNOWN_PLACES` location-noun alternation of `isSceneHeader3`
(anchored at the start only, no trailing boundary). -/
def knownPlacesWords : List String :=
  ["مسجد", "بيت", "منزل", "شارع", "حديقة", "مدرسة", "جامعة", "مكتب", "محل",
   "مستشفى", "مطعم", "فندق", "سيارة", "غرفة", "قاعة", "ممر", "سطح", "ساحة",
   "مقبرة", "مخبز", "مكتبة", "نهر", "بحر", "جبل", "غابة", "سوق", "مصنع",
   "بنك", "محكمة", "سجن", "موقف", "محطة", "مطار", "ميناء", "كوبرى", "نفق",
   "مبنى", "قصر", "نادي", "ملعب", "ملهى", "بار", "كازينو", "متحف", "مسرح",
   "سينما", "معرض", "مزرعة", "مختبر", "مستودع", "مقهى", "شركة", "كهف",
   "صالة", "حمام", "مطبخ", "شرفة", "ميدان", "مخزن", "مخازن", "حرم", "باحة",
   "دار", "روضة", "معهد", "مركز", "عيادة", "ورشة", "مصلى", "زاوية"]

/-- Does the colon-stripped normalized line start with a known place noun? -/
def knownPlacesTest (cs : List Char) : Bool :=
  knownPlacesWords.any (fun w => listPref w.data cs)

/-- Place words of the dash pattern in `isSceneHeader3`. -/
def dashPlaceWords : List String :=
  ["منزل", "بيت", "مكتب", "شقة", "فيلا", "قصر", "محل", "مصنع", "مستشفى",
   "مدرسة", "جامعة", "فندق", "مطعم", "مقهى", "شركة", "بنك", "مركز"]

/-- Scan for `[\w\s]+\s*[–—-]\s*[\w\s]+` after the place word: every
character before the dash must be in `\w ∪ \s` (the first one whitespace),
the dash must be at offset ≥ 2, and the character right after the dash must
be in `\w ∪ \s`.  A dash-class character is never in `\w ∪ \s`, so no later
dash can be reached once a scan fails. -/
def dashScan : List Char → Nat → Bool
  | [], _ => false
  | c :: t, pos =>
    let isDash := c = '-' || c.toNat = 0x2013 || c.toNat = 0x2014
    if isDash && 2 ≤ pos then
      match t with
      | [] => false
      | d :: _ => isJsWord d || isJsWs d
    else if isJsWord c || isJsWs c then dashScan t (pos + 1)
    else false

/-- The "place + qualifier − qualifier" dash pattern of `isSceneHeader3`:
`/^(منزل|بيت|…)\s+[\w\s]+\s*[–—-]\s*[\w\s]+/i`.  Note that `\w` is
`[A-Za-z0-9_]`, so Arabic qualifier text does not satisfy it. -/
def placeDashPattern (cs : List Char) : Bool :=
  dashPlaceWords.any (fun w =>
    listPref w.data cs &&
      (let rest := cs.drop w.data.length
       match rest with
       | [] => false
       | c :: _ => isJsWs c && dashScan rest 0))

/-- The first branch of `isSceneHeader3`: previous label in the
scene-header family, at most 12 words, no sentence punctuation, and not an
action opener. -/
def sceneHeader3Gate (line : String) (previousTypes : List String) : Bool :=
  let normalizedWithoutColon :=
    ⟨stripTrailColons (normalizeLine line).data⟩
  let wordCount := (splitWs normalizedWithoutColon.data).length
  let lastType := (previousTypes.getLast?).getD ""
  (lastType = "scene-header-top-line" || lastType = "scene-header-1" ||
   lastType = "scene-header-2") &&
  wordCount ≤ 12 &&
  !hasSentencePunctuation line &&
  !isActionVerbStart normalizedWithoutColon &&
  !matchesActionStartPattern normalizedWithoutColon

/-- `isSceneHeader3` from `paste-classifier.ts`: the gating branch, the
known-places branch, or the dash-pattern branch. -/
def isSceneHeader3 (line : String) (ctx : LineContext) : Bool :=
  let normalizedWithoutColon := stripTrailColons (normalizeLine line).data
  if sceneHeader3Gate line ctx.previousTypes then true
  else if knownPlacesTest normalizedWithoutColon then true
  else if placeDashPattern normalizedWithoutColon then true
  else false

/-- `isLikelyCharacter` from `paste-classifier.ts`. -/
def isLikelyCharacter (line : String) (ctx : LineContext) : Bool :=
  if !ctx.stats.isShort || 5 < ctx.stats.wordCount then false
  else if isTransition line then false
  else if isActionVerbStart (normalizeLine line) then false
  else if ctx.stats.hasPunctuation && !ctx.stats.hasColon then false
  else
    let nextLine := (ctx.nextLines.head?).getD ""
    if nextLine ≠ "" &&
        (isCompleteSceneHeader nextLine || isTransition nextLine) then false
    else if ctx.pattern.lastCharacterDistance = 1 then false
    else true

/-! ### Rule-based classifier -/

/-- The local `lastType` of `classifyWithContext` (and of `buildContext`,
`isSceneHeader3`, `classifyWithContextAndMemory`): the last entry of the
label history, `""` standing for JS `undefined` when the history is empty
(`undefined` compares unequal to every label, as `""` does). -/
def lastTypeOf (previousTypes : List String) : String :=
  (previousTypes.getLast?).getD ""

/-- The local `nextLine = ctx.nextLines[0]` (`""` for JS `undefined`; the
only uses are truthiness tests and `.trim().length`, on which `undefined`
and `""` agree). -/
def nextLineOf (ctx : LineContext) : String :=
  (ctx.nextLines.head?).getD ""

/-- `classifyWithContext` from `paste-classifier.ts`: the precedence-ordered
decision procedure.  Nested source `if`s without `return` fall through;
they are flattened here into one first-match-wins chain with identical
semantics, and the source's local `lastType`/`nextLine` bindings appear as
`lastTypeOf`/`nextLineOf`. -/
def classifyWithContext (line : String) (ctx : LineContext) : String :=
  if isBasmala line then "basmala"
  else if isCompleteSceneHeader line then "scene-header-top-line"
  else if isSceneHeader1 line then "scene-header-1"
  else if isSceneHeader2 line then "scene-header-2"
  else if isTransition line then "transition"
  else if isParenthetical line && ctx.pattern.isInDialogueBlock then
    "parenthetical"
  else if isLikelyAction line then "action"
  else if ctx.pattern.isInSceneHeader && isSceneHeader3 line ctx then
    "scene-header-3"
  else if ctx.pattern.isInDialogueBlock &&
      (lastTypeOf ctx.previousTypes = "character" ||
        lastTypeOf ctx.previousTypes = "parenthetical") &&
      !isCharacterLine line (some ⟨lastTypeOf ctx.previousTypes, true⟩) then
    "dialogue"
  else if ctx.pattern.isInDialogueBlock &&
      lastTypeOf ctx.previousTypes = "dialogue" &&
      !ctx.stats.hasColon && !isCompleteSceneHeader line then "dialogue"
  else if ctx.stats.isShort && ctx.stats.hasColon &&
      isCharacterLine line
        (some ⟨lastTypeOf ctx.previousTypes, ctx.pattern.isInDialogueBlock⟩)
    then "character"
  else if ctx.stats.isShort && nextLineOf ctx ≠ "" &&
      20 < (trimJs (nextLineOf ctx).data).length &&
      isLikelyCharacter line ctx then "character"
  else if ctx.stats.isLong && ctx.stats.hasPunctuation then "action"
  else if ctx.stats.startsWithBullet &&
      (parseInlineCharacterDialogue
        ⟨trimJs (stripBulletOnce isBulletNoHyph line.data)⟩).isNone
    then "action"
  else "action"

/-! ### Context memory data model (`context-memory-manager.ts`) -/

/-- One finalized classification handed to `updateMemory`. -/
structure ClassificationRecord where
  line : String
  classification : String
  timestamp : Nat
deriving DecidableEq, Repr

/-- The `data` payload of a `ContextMemory` record.  The
`characterDialogueMap` object is modelled as an association list with
first-match lookup. -/
structure MemoryData where
  commonCharacters : List String
  commonLocations : List String
  lastClassifications : List String
  characterDialogueMap : List (String × Nat)
deriving DecidableEq, Repr

/-- A session's `ContextMemory` record. -/
structure ContextMemory where
  sessionId : String
  lastModified : Nat
  data : MemoryData
deriving DecidableEq, Repr

/-- `memory.data.characterDialogueMap[name] || 0`. -/
def mapLookup (m : List (String × Nat)) (k : String) : Nat :=
  match m.find? (fun p => p.1 = k) with
  | some p => p.2
  | none => 0

/-- Bump `map[name]` by one (`map[name] = (map[name] || 0) + 1`). -/
def mapBump (m : List (String × Nat)) (k : String) : List (String × Nat) :=
  if m.any (fun p => p.1 = k) then
    m.map (fun p => if p.1 = k then (p.1, p.2 + 1) else p)
  else m ++ [(k, 1)]

/-! ### Memory-augmented classification -/

/-- Outcome of the awaited `memoryManager.loadContext(sessionId)` call as
`classifyWithContextAndMemory` observes it: the store returned a record,
returned `null`, or threw (the surrounding `try`/`catch` swallows the
throw). -/
inductive MemLoadResult where
  | found (memory : ContextMemory)
  | missing
  | throws
deriving DecidableEq, Repr

/-- `classifyWithContextAndMemory` from `paste-classifier.ts`.  The first
argument of the source is the line, the second the context; the memory
manager plus session id pair is replaced by the observed result of the
single `loadContext` call (`none` = no manager was supplied).  On a throw
the `catch` logs a warning and the unadjusted label is returned. -/
def classifyWithContextAndMemory (line : String) (ctx : LineContext)
    (memoryLoad : Option MemLoadResult) : String :=
  let classification := classifyWithContext line ctx
  match memoryLoad with
  | none => classification
  | some MemLoadResult.throws => classification
  | some MemLoadResult.missing => classification
  | some (MemLoadResult.found memory) =>
    let c1 :=
      if ctx.stats.isShort && !ctx.stats.hasPunctuation then
        let normalized := removeAll [':', Char.ofNat 0xff1a]
          (normalizeLine line).data
        let knownCharacter := memory.data.commonCharacters.find?
          (fun ch =>
            let charNormalized := ch.data.map lowerCh
            let lineNormalized := normalized.map lowerCh
            containsSeq charNormalized lineNormalized ||
              containsSeq lineNormalized charNormalized)
        match knownCharacter with
        | some ch =>
          if ch ≠ "" && ctx.stats.wordCount ≤ 3 && line.data.length < 40
            then "character" else classification
        | none => classification
      else classification
    let recentPattern := joinDash
      ((memory.data.lastClassifications.take 3).map String.data)
    let lastType := (ctx.previousTypes.getLast?).getD ""
    let c2 :=
      if listPref "character-dialogue".data recentPattern &&
          lastType = "dialogue" && !ctx.stats.hasColon &&
          isLikelyAction line then "action"
      else c1
    let c3 :=
      if recentPattern = "dialogue-dialogue-dialogue".data &&
          lastType = "dialogue" && !ctx.stats.hasColon &&
          !isCompleteSceneHeader line then "dialogue"
      else c2
    let c4 :=
      if recentPattern = "action-action-action".data &&
          lastType = "action" && ctx.stats.isLong then "action"
      else c3
    if c4 = "character" then
      let charName := trimJs (removeAll [':', Char.ofNat 0xff1a] line.data)
      let appearances := mapLookup memory.data.characterDialogueMap ⟨charName⟩
      if 3 ≤ appearances then "character" else c4
    else c4

/-! ### Paste handler (`handlePaste`) -/

/-- One output `div` of `handlePaste`, reduced to its classification data:
the format label, the text content of its inner line(s) (two entries for
the grouped scene-header wrapper, one otherwise), and the `marginTop`
spacing value attached to it (`""` = none set). -/
structure Block where
  label : String
  texts : List String
  marginTop : String
deriving DecidableEq, Repr

/-- The loop state of `handlePaste`: emitted blocks, the
`previousFormatClass` variable (initially `"action"`), and the growing
`classifiedTypes` label history. -/
structure PasteState where
  blocks : List Block
  prev : String
  types : List String
deriving DecidableEq, Repr

/-- `lines[i].trim()` for the `handlePaste` loop. -/
def trimmedAt (lines : List String) (i : Nat) : List Char :=
  trimJs ((lines.get? i).getD "").data

/-- `strippedLine = stripLeadingBullets(trimmedLine)`. -/
def strippedAt (lines : List String) (i : Nat) : String :=
  stripLeadingBullets ⟨trimmedAt lines i⟩

/-- The inline character/dialogue emission of `handlePaste`: a `character`
block (spacing computed against the previous format) followed by a
`dialogue` block with spacing fixed at `"0"`. -/
def inlineEmit (st : PasteState) (characterName dialogueText : String) :
    PasteState :=
  { blocks := st.blocks ++
      [{ label := "character", texts := [characterName],
         marginTop := getSpacingMarginTop st.prev "character" },
       { label := "dialogue", texts := [dialogueText], marginTop := "0" }]
    prev := "dialogue"
    types := st.types ++ ["character", "dialogue"] }

/-- The grouped scene-header emission of `handlePaste`: one wrapper block
labelled `scene-header-top-line` holding the two split parts. -/
def sceneTopEmit (st : PasteState) (number description : String) :
    PasteState :=
  { blocks := st.blocks ++
      [{ label := "scene-header-top-line", texts := [number, description],
         marginTop := getSpacingMarginTop st.prev "scene-header-top-line" }]
    prev := "scene-header-top-line"
    types := st.types ++ ["scene-header-top-line"] }

/-- The generic single-block emission of `handlePaste`. -/
def plainEmit (st : PasteState) (formatClass text : String) : PasteState :=
  { blocks := st.blocks ++
      [{ label := formatClass, texts := [text],
         marginTop := getSpacingMarginTop st.prev formatClass }]
    prev := formatClass
    types := st.types ++ [formatClass] }

/-- The body of one iteration of the `handlePaste` loop for line index `i`:
skip blank lines; try the inline NAME:TEXT split; try the grouped
scene-header split when the label is `scene-header-top-line`; otherwise
(including the failed-split fall-through) emit one generic block. -/
def pasteStep (lines : List String) (memoryLoad : Option MemLoadResult)
    (i : Nat) (st : PasteState) : PasteState :=
  if (trimmedAt lines i).isEmpty then st
  else
    match parseInlineCharacterDialogue (strippedAt lines i) with
    | some (characterName, dialogueText) =>
      inlineEmit st characterName dialogueText
    | none =>
      let classification := classifyWithContextAndMemory (strippedAt lines i)
        (buildContext lines i st.types) memoryLoad
      if classification = "scene-header-top-line" then
        match splitSceneHeader (strippedAt lines i) with
        | some (number, description) => sceneTopEmit st number description
        | none => plainEmit st classification (strippedAt lines i)
      else plainEmit st classification (strippedAt lines i)

/-- Run the `handlePaste` loop over `n` further indices starting at `i`. -/
def pasteRun (lines : List String) (memoryLoad : Option MemLoadResult) :
    Nat → Nat → PasteState → PasteState
  | 0, _, st => st
  | n + 1, i, st =>
    pasteRun lines memoryLoad n (i + 1) (pasteStep lines memoryLoad i st)

/-- The lines fed to the loop: `textData.split("\n").filter(l => l.trim())`. -/
def pasteLines (textData : String) : List String :=
  ((splitCh '\n' textData.data).map (fun cs => (⟨cs⟩ : String))).filter
    (fun l => !(trimJs l.data).isEmpty)

/-- The ordered block sequence `handlePaste` produces for a paste of
`textData` (the DOM insertion, styling callback and selection juggling are
outside the classification core). -/
def handlePasteBlocks (textData : String)
    (memoryLoad : Option MemLoadResult) : List Block :=
  let lines := pasteLines textData
  (pasteRun lines memoryLoad lines.length 0
    { blocks := [], prev := "action", types := [] }).blocks

/-! ### ContextMemoryManager, value level

The in-memory manager keeps a `Map<string, ContextMemory>`.  For the
update logic (claim-relevant: `updateMemory`) the map is modelled at value
level as an association list; `loadContext`/`saveContext` deep copies are
the identity on values. -/

/-- `storage.get(sessionId)` (with `has` guarding, as `loadContext` does). -/
def storeLookup (storage : List (String × ContextMemory)) (sessionId : String) :
    Option ContextMemory :=
  match storage.find? (fun p => p.1 = sessionId) with
  | some p => some p.2
  | none => none

/-- `storage.set(sessionId, memory)`: replace the value at an existing key
(a `Map` holds each key once), or append a new entry in insertion order. -/
def storeSet : List (String × ContextMemory) → String → ContextMemory →
    List (String × ContextMemory)
  | [], sessionId, memory => [(sessionId, memory)]
  | p :: t, sessionId, memory =>
    if p.1 = sessionId then (sessionId, memory) :: t
    else p :: storeSet t sessionId memory

/-- The fresh record built on a load miss inside `updateMemory`. -/
def emptyMemory (sessionId : String) (now : Nat) : ContextMemory :=
  { sessionId := sessionId
    lastModified := now
    data :=
      { commonCharacters := []
        commonLocations := []
        lastClassifications := []
        characterDialogueMap := [] } }

/-- The character-name cleanup in `updateMemory`:
`record.line.replace(/[:ï¼š]/g, "").trim()`.  The source file holds the
mojibake character class `[:ï¼š]`, i.e. the set {`:`, `ï`, `¼`, `š`}. -/
def updateCharName (line : String) : String :=
  ⟨trimJs (removeAll [':', 'ï', '¼', 'š'] line.data)⟩

/-- The `classifications.forEach` body of `updateMemory`: for each record
labelled `character`, add the cleaned name to `commonCharacters` (no
duplicates, insertion order) and bump `characterDialogueMap`. -/
def recordCharacters (records : List ClassificationRecord)
    (chars : List String) (map : List (String × Nat)) :
    List String × List (String × Nat) :=
  records.foldl
    (fun acc record =>
      if record.classification = "character" then
        let charName := updateCharName record.line
        if charName = "" then acc
        else
          (if acc.1.contains charName then acc.1 else acc.1 ++ [charName],
           mapBump acc.2 charName)
      else acc)
    (chars, map)

/-- `ContextMemoryManager.updateMemory(sessionId, classifications)` on the
value-level store; `now` stands for `Date.now()`. -/
def updateMemory (now : Nat) (sessionId : String)
    (classifications : List ClassificationRecord)
    (storage : List (String × ContextMemory)) :
    List (String × ContextMemory) :=
  let memory := (storeLookup storage sessionId).getD (emptyMemory sessionId now)
  let newLastClassifications :=
    ((classifications.map (fun c => c.classification)) ++
      memory.data.lastClassifications).take 20
  let p := recordCharacters classifications memory.data.commonCharacters
    memory.data.characterDialogueMap
  storeSet storage sessionId
    { sessionId := memory.sessionId
      lastModified := now
      data :=
        { commonCharacters := p.1
          commonLocations := memory.data.commonLocations
          lastClassifications := newLastClassifications
          characterDialogueMap := p.2 } }

/-! ### ContextMemoryManager, reference level

`loadContext` returns `JSON.parse(JSON.stringify(stored))` — a fresh deep
copy — and `saveContext` stores a fresh deep copy of its argument.  To
state what deep copying buys (claim on aliasing), object identity is made
explicit: a heap of `ContextMemory` values addressed by allocation index,
and a table mapping each session id to the address of its stored record.
Deep copy = allocation of a fresh address holding an equal value; caller
mutation = in-place update of the value at the caller's address. -/

namespace MemStore

/-- Heap of records plus the manager's `storage` table (session → address). -/
structure StoreState where
  heap : List ContextMemory
  tbl : List (String × Nat)
deriving Repr

/-- Address lookup in the `storage` table. -/
def tblLookup (tbl : List (String × Nat)) (sessionId : String) : Option Nat :=
  match tbl.find? (fun p => p.1 = sessionId) with
  | some p => some p.2
  | none => none

/-- Placeholder value for out-of-range reads (never hit under `WF`). -/
def dummy : ContextMemory := emptyMemory "" 0

/-- `loadContext(sessionId)`: a miss returns `none` and leaves the state
alone; a hit allocates a fresh cell holding a copy of the stored value and
returns its address. -/
def loadContext (sessionId : String) (st : StoreState) :
    Option Nat × StoreState :=
  match tblLookup st.tbl sessionId with
  | none => (none, st)
  | some a =>
    (some st.heap.length,
     { heap := st.heap ++ [(st.heap.get? a).getD dummy], tbl := st.tbl })

/-- `Map.set` on the address table: replace the unique existing entry or
append a new one. -/
def tblSet : List (String × Nat) → String → Nat → List (String × Nat)
  | [], sessionId, a => [(sessionId, a)]
  | p :: t, sessionId, a =>
    if p.1 = sessionId then (sessionId, a) :: t
    else p :: tblSet t sessionId a

/-- `saveContext(sessionId, memory)`: allocate a fresh cell holding a copy
of the caller's record (at address `a`) and point the table at it. -/
def saveContext (sessionId : String) (a : Nat) (st : StoreState) : StoreState :=
  { heap := st.heap ++ [(st.heap.get? a).getD dummy]
    tbl := tblSet st.tbl sessionId st.heap.length }

/-- A caller mutating the object it holds at address `a`. -/
def mutate (a : Nat) (f : ContextMemory → ContextMemory) (st : StoreState) :
    StoreState :=
  { heap := st.heap.set a (f ((st.heap.get? a).getD dummy)), tbl := st.tbl }

/-- The record contents the manager observes for a session. -/
def storedValue (sessionId : String) (st : StoreState) : Option ContextMemory :=
  match tblLookup st.tbl sessionId with
  | none => none
  | some a => st.heap.get? a

/-- Well-formedness: every table address points into the heap. -/
def WF (st : StoreState) : Prop :=
  ∀ sessionId a, tblLookup st.tbl sessionId = some a → a < st.heap.length

end MemStore

/-! ## Specification-side definitions -/

/-- The three outcomes of the spec's spacing table (§4.7): a forced zero
gap, a fixed paragraph gap, or no explicit value (base line spacing). -/
inductive Gap where
  | zero
  | para
  | default
deriving DecidableEq, Repr

/-- The concrete CSS value the implementation uses for each outcome. -/
def gapValue : Gap → String
  | Gap.zero => "0"
  | Gap.para => "14pt"
  | Gap.default => ""

/-- Modelled from the spec (§4.7): the exact spacing table, row by row;
every pair not listed defaults to no explicit gap. -/
def specSpacingTable (previousLabel currentLabel : String) : Gap :=
  if previousLabel = "basmala" then Gap.zero
  else if previousLabel = "character" &&
      (currentLabel = "dialogue" || currentLabel = "parenthetical") then
    Gap.zero
  else if previousLabel = "parenthetical" && currentLabel = "dialogue" then
    Gap.zero
  else if previousLabel = "scene-header-2" &&
      currentLabel = "scene-header-3" then Gap.para
  else if previousLabel = "scene-header-3" && currentLabel = "action" then
    Gap.para
  else if previousLabel = "action" &&
      (currentLabel = "action" || currentLabel = "character" ||
       currentLabel = "transition") then Gap.para
  else if previousLabel = "dialogue" &&
      (currentLabel = "character" || currentLabel = "action" ||
       currentLabel = "transition") then Gap.para
  else if previousLabel = "parenthetical" &&
      (currentLabel = "character" || currentLabel = "action" ||
       currentLabel = "transition") then Gap.para
  else if previousLabel = "transition" &&
      (currentLabel = "scene-header-1" ||
       currentLabel = "scene-header-top-line") then Gap.para
  else Gap.default

/-! ## Claims -/

set_option maxHeartbeats 1000000 in
/-- C6: for every pair of labels, `getSpacingMarginTop` returns exactly
what the spec's spacing table prescribes — `"0"` for the no-gap rows
(basmala→anything, character→dialogue/parenthetical,
parenthetical→dialogue), `"14pt"` for the paragraph-gap rows, and no
explicit value for every unlisted pair. -/
theorem C6_spacing_table_refines (previousLabel currentLabel : String) :
    getSpacingMarginTop previousLabel currentLabel =
      gapValue (specSpacingTable previousLabel currentLabel) := by
  simp only [getSpacingMarginTop, specSpacingTable]
  split_ifs <;> rfl

/-- C9: when the memory manager is absent, the session record is missing,
or the store read throws, `classifyWithContextAndMemory` returns exactly
the unadjusted rule-based label; being a total function, it never
propagates an exception. -/
theorem C9_memory_failure_degrades (line : String) (ctx : LineContext)
    (memoryLoad : Option MemLoadResult)
    (h : memoryLoad = none ∨ memoryLoad = some MemLoadResult.throws ∨
      memoryLoad = some MemLoadResult.missing) :
    classifyWithContextAndMemory line ctx memoryLoad =
      classifyWithContext line ctx := by
  rcases h with rfl | rfl | rfl <;> rfl

/-- Witness for C9 at a concrete line/context, all three failure modes. -/
theorem C9_memory_failure_degrades_witness :
    classifyWithContextAndMemory "علي:" (buildContext ["علي:"] 0 []) none =
        classifyWithContext "علي:" (buildContext ["علي:"] 0 []) ∧
      classifyWithContextAndMemory "علي:" (buildContext ["علي:"] 0 [])
          (some MemLoadResult.throws) =
        classifyWithContext "علي:" (buildContext ["علي:"] 0 []) ∧
      classifyWithContextAndMemory "علي:" (buildContext ["علي:"] 0 [])
          (some MemLoadResult.missing) =
        classifyWithContext "علي:" (buildContext ["علي:"] 0 []) :=
  ⟨C9_memory_failure_degrades _ _ _ (Or.inl rfl),
   C9_memory_failure_degrades _ _ _ (Or.inr (Or.inl rfl)),
   C9_memory_failure_degrades _ _ _ (Or.inr (Or.inr rfl))⟩

/-- The claimed relation between adjacent output blocks: a `character`
block is never followed by a `dialogue` or `parenthetical` block with
nonzero spacing. -/
def SpacingPairOK (b₁ b₂ : Block) : Prop :=
  b₁.label = "character" →
    (b₂.label = "dialogue" ∨ b₂.label = "parenthetical") →
      b₂.marginTop = "0"

/-- The generic spacing path yields `"0"` after a `character` block. -/
theorem getSpacing_character_zero (c : String)
    (h : c = "dialogue" ∨ c = "parenthetical") :
    getSpacingMarginTop "character" c = "0" := by
  rcases h with rfl | rfl <;> rfl

/-- Loop invariant of `handlePaste`: the spacing relation holds between all
adjacent emitted blocks, and `previousFormatClass` equals the label of the
last emitted block (when one exists). -/
def PasteInv (st : PasteState) : Prop :=
  List.Chain' SpacingPairOK st.blocks ∧
    ∀ b, st.blocks.getLast? = some b → b.label = st.prev

/-- Every `pasteStep` outcome is a no-op or one of the three emissions. -/
theorem pasteStep_shapes (lines : List String)
    (memoryLoad : Option MemLoadResult) (i : Nat) (st : PasteState) :
    pasteStep lines memoryLoad i st = st ∨
      (∃ n t, pasteStep lines memoryLoad i st = inlineEmit st n t) ∨
      (∃ n d, pasteStep lines memoryLoad i st = sceneTopEmit st n d) ∨
      (∃ c t, pasteStep lines memoryLoad i st = plainEmit st c t) := by
  by_cases hemp : (trimmedAt lines i).isEmpty = true
  · left
    simp [pasteStep, hemp]
  · cases hpi : parseInlineCharacterDialogue (strippedAt lines i) with
    | some p =>
      right; left
      refine ⟨p.1, p.2, ?_⟩
      obtain ⟨a, b⟩ := p
      simp [pasteStep, hemp, hpi]
    | none =>
      by_cases hc : classifyWithContextAndMemory (strippedAt lines i)
          (buildContext lines i st.types) memoryLoad =
            "scene-header-top-line"
      · cases hs : splitSceneHeader (strippedAt lines i) with
        | some q =>
          right; right; left
          refine ⟨q.1, q.2, ?_⟩
          obtain ⟨a, b⟩ := q
          simp [pasteStep, hemp, hpi, hc, hs]
        | none =>
          right; right; right
          refine ⟨classifyWithContextAndMemory (strippedAt lines i)
            (buildContext lines i st.types) memoryLoad,
            strippedAt lines i, ?_⟩
          simp [pasteStep, hemp, hpi, hc, hs]
      · right; right; right
        refine ⟨classifyWithContextAndMemory (strippedAt lines i)
          (buildContext lines i st.types) memoryLoad,
          strippedAt lines i, ?_⟩
        simp [pasteStep, hemp, hpi, hc]

/-- Appending one block preserves the chain when the new pair is fine. -/
theorem chain'_append_one {bs : List Block} {b : Block}
    (h : List.Chain' SpacingPairOK bs)
    (hb : ∀ x, bs.getLast? = some x → SpacingPairOK x b) :
    List.Chain' SpacingPairOK (bs ++ [b]) := by
  rw [List.chain'_append]
  refine ⟨h, List.chain'_singleton b, ?_⟩
  intro x hx y hy
  simp only [List.head?_cons, Option.mem_def, Option.some.injEq] at hy
  subst hy
  exact hb x hx

/-- The inline emission preserves the invariant. -/
theorem inv_inlineEmit (st : PasteState) (n t : String) (h : PasteInv st) :
    PasteInv (inlineEmit st n t) := by
  obtain ⟨hc, hl⟩ := h
  constructor
  · show List.Chain' SpacingPairOK (st.blocks ++ [_, _])
    rw [show st.blocks ++
        [({ label := "character", texts := [n],
            marginTop := getSpacingMarginTop st.prev "character" } : Block),
         { label := "dialogue", texts := [t], marginTop := "0" }] =
      (st.blocks ++
        [{ label := "character", texts := [n],
           marginTop := getSpacingMarginTop st.prev "character" }]) ++
        [{ label := "dialogue", texts := [t], marginTop := "0" }]
      from by simp]
    apply chain'_append_one
    · apply chain'_append_one hc
      intro x _
      intro _ hy
      rcases hy with hy | hy <;> simp at hy
    · intro x hx
      rw [List.getLast?_concat] at hx
      cases hx
      intro _ _
      rfl
  · intro b hb
    show _ = "dialogue"
    rw [show (inlineEmit st n t).blocks = (st.blocks ++
        [({ label := "character", texts := [n],
            marginTop := getSpacingMarginTop st.prev "character" } : Block)])
          ++ [{ label := "dialogue", texts := [t], marginTop := "0" }]
      from by simp [inlineEmit]] at hb
    rw [List.getLast?_concat] at hb
    cases hb
    rfl

/-- The grouped scene-header emission preserves the invariant. -/
theorem inv_sceneTopEmit (st : PasteState) (n d : String) (h : PasteInv st) :
    PasteInv (sceneTopEmit st n d) := by
  obtain ⟨hc, hl⟩ := h
  constructor
  · apply chain'_append_one hc
    intro x _
    intro _ hy
    rcases hy with hy | hy <;> simp at hy
  · intro b hb
    rw [show (sceneTopEmit st n d).blocks = st.blocks ++
        [({ label := "scene-header-top-line", texts := [n, d],
            marginTop :=
              getSpacingMarginTop st.prev "scene-header-top-line" } : Block)]
      from rfl, List.getLast?_concat] at hb
    cases hb
    rfl

/-- The generic emission preserves the invariant: its spacing is computed
by `getSpacingMarginTop` against the previous label, which forces `"0"`
after a `character` block. -/
theorem inv_plainEmit (st : PasteState) (c t : String) (h : PasteInv st) :
    PasteInv (plainEmit st c t) := by
  obtain ⟨hc, hl⟩ := h
  constructor
  · apply chain'_append_one hc
    intro x hx
    intro hx1 hy
    show getSpacingMarginTop st.prev c = "0"
    rw [← hl x hx, hx1]
    exact getSpacing_character_zero c hy
  · intro b hb
    rw [show (plainEmit st c t).blocks = st.blocks ++
        [({ label := c, texts := [t],
            marginTop := getSpacingMarginTop st.prev c } : Block)]
      from rfl, List.getLast?_concat] at hb
    cases hb
    rfl

/-- One loop iteration preserves the invariant. -/
theorem pasteStep_inv (lines : List String)
    (memoryLoad : Option MemLoadResult) (i : Nat) (st : PasteState)
    (h : PasteInv st) : PasteInv (pasteStep lines memoryLoad i st) := by
  rcases pasteStep_shapes lines memoryLoad i st with
    heq | ⟨n, t, heq⟩ | ⟨n, d, heq⟩ | ⟨c, t, heq⟩ <;> rw [heq]
  · exact h
  · exact inv_inlineEmit st n t h
  · exact inv_sceneTopEmit st n d h
  · exact inv_plainEmit st c t h

/-- The whole loop preserves the invariant. -/
theorem pasteRun_inv (lines : List String)
    (memoryLoad : Option MemLoadResult) :
    ∀ (n i : Nat) (st : PasteState), PasteInv st →
      PasteInv (pasteRun lines memoryLoad n i st)
  | 0, _, _, h => h
  | n + 1, i, st, h =>
    pasteRun_inv lines memoryLoad n (i + 1) (pasteStep lines memoryLoad i st)
      (pasteStep_inv lines memoryLoad i st h)

/-- C1: in every block sequence `handlePaste` produces, a block labelled
`character` that is immediately followed by a `dialogue` or
`parenthetical` block gives that following block spacing `"0"` — on the
generic path because `getSpacingMarginTop("character", x)` is `"0"` for
those `x`, and on the inline NAME:TEXT path because the dialogue block's
spacing is hard-coded to `"0"`. -/
theorem C1_character_spacing_zero (textData : String)
    (memoryLoad : Option MemLoadResult) :
    List.Chain' SpacingPairOK (handlePasteBlocks textData memoryLoad) :=
  (pasteRun_inv (pasteLines textData) memoryLoad
    (pasteLines textData).length 0
    { blocks := [], prev := "action", types := [] }
    ⟨List.chain'_nil, fun b hb => by cases hb⟩).1

/-- Witness for C1: in the two-block output for `"علي: أين أنت؟"` the
`dialogue` block that follows the `character` block carries spacing `"0"`. -/
theorem C1_character_spacing_zero_witness :
    ((handlePasteBlocks "علي: أين أنت؟" none).get? 1).map Block.marginTop =
      some "0" := by
  have h := C1_character_spacing_zero "علي: أين أنت؟" none
  rw [show handlePasteBlocks "علي: أين أنت؟" none =
    [{ label := "character", texts := ["علي"], marginTop := "14pt" },
     { label := "dialogue", texts := ["أين أنت؟"], marginTop := "0" }]
    from rfl] at h
  have hp := (List.chain'_cons.mp h).1
  have hval := hp rfl (Or.inl rfl)
  exact congrArg some hval

/-- C2, counterexample: the line `"بسم الله: الرحمن الرحيم"` satisfies the
basmala triple-token test, yet `handlePaste` never assigns it the label
`basmala`: the inline NAME:TEXT split runs before classification and emits
a `character` block and a `dialogue` block instead. -/
theorem C2_basmala_counterexample :
    isBasmala "بسم الله: الرحمن الرحيم" = true ∧
      (handlePasteBlocks "بسم الله: الرحمن الرحيم" none).map Block.label =
        ["character", "dialogue"] := by
  exact ⟨rfl, rfl⟩

/-- C2, amended: every line satisfying the basmala triple-token test is
labelled `basmala` by the rule-based classifier `classifyWithContext`,
independent of position and label history; in `handlePaste` this decides
the line's label only when the line is not captured first by the inline
NAME:TEXT split. -/
theorem C2_basmala_classify (line : String) (ctx : LineContext)
    (h : isBasmala line = true) :
    classifyWithContext line ctx = "basmala" := by
  simp only [classifyWithContext, h, if_true]

/-- Witness for C2 at the canonical basmala line. -/
theorem C2_basmala_classify_witness :
    isBasmala "بسم الله الرحمن الرحيم" = true ∧
      classifyWithContext "بسم الله الرحمن الرحيم"
        (buildContext ["بسم الله الرحمن الرحيم"] 0 []) = "basmala" :=
  ⟨rfl, C2_basmala_classify _ _ rfl⟩

/-- C4, counterexample: inside an active dialogue block with the
immediately preceding label `dialogue`, the colon-terminated line `"علي:"`
IS accepted as a character cue — the unconditional ends-with-colon
acceptance fires before the dialogue-context rejection is consulted. -/
theorem C4_colon_after_dialogue_counterexample :
    isCharacterLine "علي:"
      (some { lastFormat := "dialogue", isInDialogueBlock := true }) = true := by
  exact rfl

/-- C4, amended: with dialogue-block context whose preceding label is
`dialogue`, a line is rejected as a character cue whenever its colon is not
line-final — the never-reclassify rule governs only the context-checked
fall-through branch; lines ending with a colon (and colon-free short
Arabic-only name lines) are still accepted. -/
theorem C4_dialogue_context_rejects (line : String) (c : CharCtx)
    (h1 : c.isInDialogueBlock = true) (h2 : c.lastFormat = "dialogue")
    (h3 : (trimJs line.data).any isColonCh = true)
    (h4 : endsColonCh (trimJs line.data) = false) :
    isCharacterLine line (some c) = false := by
  simp [isCharacterLine, h1, h2, h3, h4]

/-- Witness for C4 at the mid-colon line `"علي: نعم"` following `dialogue`. -/
theorem C4_dialogue_context_rejects_witness :
    isCharacterLine "علي: نعم"
      (some { lastFormat := "dialogue", isInDialogueBlock := true }) = false :=
  C4_dialogue_context_rejects _ _ rfl rfl rfl rfl

/-- C3: whenever a pasted line (trimmed, bullets stripped) parses as an
inline NAME:TEXT character/dialogue pair — which requires NAME to satisfy
the character-shape colon rule `CHARACTER_RE` — the `handlePaste` loop
emits exactly two sibling blocks for it: a `character` block carrying NAME
and then a `dialogue` block carrying TEXT whose spacing is fixed at `"0"`. -/
theorem C3_inline_split (lines : List String) (memoryLoad : Option MemLoadResult)
    (i : Nat) (st : PasteState) (name text : String)
    (h : parseInlineCharacterDialogue (strippedAt lines i) =
      some (name, text)) :
    pasteStep lines memoryLoad i st =
      { blocks := st.blocks ++
          [{ label := "character", texts := [name],
             marginTop := getSpacingMarginTop st.prev "character" },
           { label := "dialogue", texts := [text], marginTop := "0" }]
        prev := "dialogue"
        types := st.types ++ ["character", "dialogue"] } := by
  have hne : (trimmedAt lines i).isEmpty = false := by
    cases hl : trimmedAt lines i with
    | nil =>
      rw [show strippedAt lines i = stripLeadingBullets ⟨trimmedAt lines i⟩
        from rfl, hl] at h
      rw [show parseInlineCharacterDialogue
        (stripLeadingBullets ⟨([] : List Char)⟩) = none from rfl] at h
      exact Option.noConfusion h
    | cons c t => rfl
  simp only [pasteStep, hne, h, Bool.false_eq_true, if_false, inlineEmit]

/-- Witness for C3: the spec's concrete example
`"علي: أين أنت؟"` yields `{character, "علي"}` then `{dialogue, "أين أنت؟"}`
with zero spacing between them, both at the loop-step level and for the
whole paste. -/
theorem C3_inline_split_witness :
    pasteStep ["علي: أين أنت؟"] none 0
        { blocks := [], prev := "action", types := [] } =
      { blocks :=
          [{ label := "character", texts := ["علي"], marginTop := "14pt" },
           { label := "dialogue", texts := ["أين أنت؟"], marginTop := "0" }]
        prev := "dialogue"
        types := ["character", "dialogue"] } ∧
      (handlePasteBlocks "علي: أين أنت؟" none).map
          (fun b => (b.label, b.marginTop)) =
        [("character", "14pt"), ("dialogue", "0")] :=
  ⟨C3_inline_split ["علي: أين أنت؟"] none 0
    { blocks := [], prev := "action", types := [] } "علي" "أين أنت؟" rfl, rfl⟩

/-- C8, counterexample: the line `"مشْهد 1 - داخلي ليل"` (a sukun inside
`مشهد`) classifies as a complete scene header — normalization removes the
diacritic — but `splitSceneHeader`, which runs on the RAW stripped line,
finds no match and returns `null`.  `handlePaste` then emits a single
block that keeps the label `scene-header-top-line`; it is NOT emitted as a
`scene-header-1` block as the claim states. -/
theorem C8_malformed_split_counterexample :
    splitSceneHeader (stripLeadingBullets "مشْهد 1 - داخلي ليل") = none ∧
      handlePasteBlocks "مشْهد 1 - داخلي ليل" none =
        [{ label := "scene-header-top-line",
           texts := ["مشْهد 1 - داخلي ليل"], marginTop := "" }] :=
  ⟨rfl, rfl⟩

/-- C8, amended: when a line classifies as `scene-header-top-line` but
`splitSceneHeader` yields no parts, `handlePaste` does not raise (the loop
step is total) and falls through to the generic single-block path,
emitting one block that carries the line verbatim under the label
`scene-header-top-line` (not `scene-header-1`). -/
theorem C8_malformed_split_falls_through (lines : List String)
    (memoryLoad : Option MemLoadResult) (i : Nat) (st : PasteState)
    (h0 : (trimmedAt lines i).isEmpty = false)
    (h1 : parseInlineCharacterDialogue (strippedAt lines i) = none)
    (h2 : classifyWithContextAndMemory (strippedAt lines i)
      (buildContext lines i st.types) memoryLoad = "scene-header-top-line")
    (h3 : splitSceneHeader (strippedAt lines i) = none) :
    pasteStep lines memoryLoad i st =
      { blocks := st.blocks ++
          [{ label := "scene-header-top-line", texts := [strippedAt lines i],
             marginTop :=
               getSpacingMarginTop st.prev "scene-header-top-line" }]
        prev := "scene-header-top-line"
        types := st.types ++ ["scene-header-top-line"] } := by
  simp only [pasteStep, h0, h1, h2, h3, Bool.false_eq_true, if_false, if_true,
    plainEmit, h2]

/-- Witness for C8 at the sukun-bearing scene header line. -/
theorem C8_malformed_split_falls_through_witness :
    pasteStep ["مشْهد 1 - داخلي ليل"] none 0
        { blocks := [], prev := "action", types := [] } =
      { blocks :=
          [{ label := "scene-header-top-line",
             texts := ["مشْهد 1 - داخلي ليل"], marginTop := "" }]
        prev := "scene-header-top-line"
        types := ["scene-header-top-line"] } :=
  C8_malformed_split_falls_through ["مشْهد 1 - داخلي ليل"] none 0
    { blocks := [], prev := "action", types := [] } rfl rfl rfl rfl

/-- `isSceneHeader3` is the disjunction of its three branches. -/
theorem isSceneHeader3_eq_branches (line : String) (ctx : LineContext) :
    isSceneHeader3 line ctx =
      (sceneHeader3Gate line ctx.previousTypes ||
        knownPlacesTest (stripTrailColons (normalizeLine line).data) ||
        placeDashPattern (stripTrailColons (normalizeLine line).data)) := by
  simp only [isSceneHeader3]
  split_ifs with h1 h2 h3 <;> simp_all

/-- C5, counterexample: the line `"مسجد كبير في الحي."` carries terminal
sentence punctuation, yet immediately after a scene header the pipeline
labels it `scene-header-3`: the known-location-noun branch of
`isSceneHeader3` does not require the short/no-punctuation/not-action
conditions of the claim's rule 8. -/
theorem C5_scene_header_3_counterexample :
    hasSentencePunctuation "مسجد كبير في الحي." = true ∧
      (handlePasteBlocks ("مشهد 1 - داخلي ليل" ++ "\n" ++ "مسجد كبير في الحي.")
          none).map Block.label =
        ["scene-header-top-line", "scene-header-3"] :=
  ⟨rfl, rfl⟩

/-- C5, amended: `classifyWithContext` returns `scene-header-3` only when
the previous label is in the scene-header family (`isInSceneHeader`) and
`isSceneHeader3` holds, where `isSceneHeader3` is the DISJUNCTION of (a)
the claim's conjunction of scene-family/short/no-punctuation/no-action
conditions, (b) a match of the closed location-noun list, and (c) the
place-dash pattern — branches (b) and (c) apply regardless of length,
punctuation, or action-opener shape. -/
theorem C5_scene_header_3_only_if (line : String) (ctx : LineContext)
    (h : classifyWithContext line ctx = "scene-header-3") :
    ctx.pattern.isInSceneHeader = true ∧ isSceneHeader3 line ctx = true ∧
      (sceneHeader3Gate line ctx.previousTypes = true ∨
        knownPlacesTest (stripTrailColons (normalizeLine line).data) = true ∨
        placeDashPattern (stripTrailColons (normalizeLine line).data) = true)
    := by
  unfold classifyWithContext at h
  have k1 : ¬(isBasmala line = true) := by
    intro hc
    rw [if_pos hc] at h
    exact absurd h (by decide)
  rw [if_neg k1] at h
  have k2 : ¬(isCompleteSceneHeader line = true) := by
    intro hc
    rw [if_pos hc] at h
    exact absurd h (by decide)
  rw [if_neg k2] at h
  have k3 : ¬(isSceneHeader1 line = true) := by
    intro hc
    rw [if_pos hc] at h
    exact absurd h (by decide)
  rw [if_neg k3] at h
  have k4 : ¬(isSceneHeader2 line = true) := by
    intro hc
    rw [if_pos hc] at h
    exact absurd h (by decide)
  rw [if_neg k4] at h
  have k5 : ¬(isTransition line = true) := by
    intro hc
    rw [if_pos hc] at h
    exact absurd h (by decide)
  rw [if_neg k5] at h
  have k6 : ¬((isParenthetical line && ctx.pattern.isInDialogueBlock) = true)
    := by
    intro hc
    rw [if_pos hc] at h
    exact absurd h (by decide)
  rw [if_neg k6] at h
  have k7 : ¬(isLikelyAction line = true) := by
    intro hc
    rw [if_pos hc] at h
    exact absurd h (by decide)
  rw [if_neg k7] at h
  by_cases k8 : (ctx.pattern.isInSceneHeader && isSceneHeader3 line ctx) = true
  · rcases Bool.and_eq_true .. |>.mp k8 with ⟨ha, hb⟩
    refine ⟨ha, hb, ?_⟩
    rw [isSceneHeader3_eq_branches] at hb
    simpa [Bool.or_eq_true, or_assoc] using hb
  · rw [if_neg k8] at h
    exfalso
    have k9 : ¬((ctx.pattern.isInDialogueBlock &&
        (lastTypeOf ctx.previousTypes = "character" ||
          lastTypeOf ctx.previousTypes = "parenthetical") &&
        !isCharacterLine line
          (some ⟨lastTypeOf ctx.previousTypes, true⟩)) = true) := by
      intro hc
      rw [if_pos hc] at h
      exact absurd h (by decide)
    rw [if_neg k9] at h
    have k10 : ¬((ctx.pattern.isInDialogueBlock &&
        lastTypeOf ctx.previousTypes = "dialogue" &&
        !ctx.stats.hasColon && !isCompleteSceneHeader line) = true) := by
      intro hc
      rw [if_pos hc] at h
      exact absurd h (by decide)
    rw [if_neg k10] at h
    have k11 : ¬((ctx.stats.isShort && ctx.stats.hasColon &&
        isCharacterLine line
          (some ⟨lastTypeOf ctx.previousTypes,
            ctx.pattern.isInDialogueBlock⟩)) = true) := by
      intro hc
      rw [if_pos hc] at h
      exact absurd h (by decide)
    rw [if_neg k11] at h
    have k12 : ¬((ctx.stats.isShort && nextLineOf ctx ≠ "" &&
        20 < (trimJs (nextLineOf ctx).data).length &&
        isLikelyCharacter line ctx) = true) := by
      intro hc
      rw [if_pos hc] at h
      exact absurd h (by decide)
    rw [if_neg k12] at h
    have k13 : ¬((ctx.stats.isLong && ctx.stats.hasPunctuation) = true) := by
      intro hc
      rw [if_pos hc] at h
      exact absurd h (by decide)
    rw [if_neg k13] at h
    have k14 : ¬((ctx.stats.startsWithBullet &&
        (parseInlineCharacterDialogue
          ⟨trimJs (stripBulletOnce isBulletNoHyph line.data)⟩).isNone) = true)
      := by
      intro hc
      rw [if_pos hc] at h
      exact absurd h (by decide)
    rw [if_neg k14] at h
    exact absurd h (by decide)

/-- The context of the second line of the C5 counterexample batch. -/
def ctx₅ : LineContext :=
  buildContext ["مشهد 1 - داخلي ليل", "مسجد كبير في الحي."] 1
    ["scene-header-top-line"]

/-- Witness for C5 at the punctuated location line after a scene header. -/
theorem C5_scene_header_3_only_if_witness :
    ctx₅.pattern.isInSceneHeader = true ∧
      isSceneHeader3 "مسجد كبير في الحي." ctx₅ = true ∧
      (sceneHeader3Gate "مسجد كبير في الحي." ctx₅.previousTypes = true ∨
        knownPlacesTest
          (stripTrailColons (normalizeLine "مسجد كبير في الحي.").data) = true ∨
        placeDashPattern
          (stripTrailColons (normalizeLine "مسجد كبير في الحي.").data) = true)
    :=
  C5_scene_header_3_only_if "مسجد كبير في الحي." ctx₅ rfl

/-! ### Store lemmas for the memory manager -/

/-- Setting a key makes it readable. -/
theorem storeLookup_storeSet_self (storage : List (String × ContextMemory))
    (sessionId : String) (memory : ContextMemory) :
    storeLookup (storeSet storage sessionId memory) sessionId = some memory
    := by
  induction storage with
  | nil => simp [storeSet, storeLookup]
  | cons hd tl ih =>
    by_cases h1 : hd.1 = sessionId
    · simp [storeSet, storeLookup, h1]
    · simp only [storeSet, if_neg h1, storeLookup, List.find?_cons]
      have h1d : (decide (hd.1 = sessionId)) = false := by simp [h1]
      rw [h1d]
      exact ih

/-- Setting one key leaves other keys unchanged. -/
theorem storeLookup_storeSet_other (storage : List (String × ContextMemory))
    (sessionId other : String) (memory : ContextMemory)
    (h : other ≠ sessionId) :
    storeLookup (storeSet storage sessionId memory) other =
      storeLookup storage other := by
  induction storage with
  | nil => simp [storeSet, storeLookup, Ne.symm h]
  | cons hd tl ih =>
    by_cases h1 : hd.1 = sessionId
    · simp only [storeSet, if_pos h1, storeLookup, List.find?_cons]
      have hsd : (decide (sessionId = other)) = false := by
        simp [Ne.symm h]
      have hhd : (decide (hd.1 = other)) = false := by
        rw [h1]
        simp [Ne.symm h]
      rw [hsd, hhd]
    · simp only [storeSet, if_neg h1, storeLookup, List.find?_cons]
      by_cases h5 : hd.1 = other
      · simp [h5]
      · have h5d : (decide (hd.1 = other)) = false := by simp [h5]
        rw [h5d]
        exact ih

/-! ### Memory update sequences (claim C7) -/

/-- The labels of a batch of records, in the order supplied. -/
def recLabels (records : List ClassificationRecord) : List String :=
  records.map (fun c => c.classification)

/-- A sequence of `updateMemory` calls: each entry is
(`Date.now()` value, session id, records). -/
def applyCalls (calls : List (Nat × String × List ClassificationRecord))
    (storage : List (String × ContextMemory)) :
    List (String × ContextMemory) :=
  calls.foldl (fun st c => updateMemory c.1 c.2.1 c.2.2 st) storage

/-- A sequence of `updateMemory` calls against one session. -/
def applyBatches (sessionId : String)
    (batches : List (Nat × List ClassificationRecord))
    (storage : List (String × ContextMemory)) :
    List (String × ContextMemory) :=
  batches.foldl (fun st b => updateMemory b.1 sessionId b.2 st) storage

/-- The stored `lastClassifications` of a session (`[]` when absent). -/
def lcOf (storage : List (String × ContextMemory)) (sessionId : String) :
    List String :=
  match storeLookup storage sessionId with
  | some m => m.data.lastClassifications
  | none => []

/-- What the update sequence accumulates: the most recent batch's labels
first (each batch kept in its supplied record order), then earlier
batches'. -/
def newestBatchFirst (batches : List (Nat × List ClassificationRecord)) :
    List String :=
  (batches.reverse.map (fun b => recLabels b.2)).flatten

/-- Taking `n` absorbs an inner `take n` on the appended tail. -/
theorem take_append_take {α : Type} :
    ∀ (m n : Nat) (xs ys : List α), m ≤ n →
      (xs ++ ys.take n).take m = (xs ++ ys).take m := by
  intro m n xs
  induction xs generalizing m with
  | nil =>
    intro ys hmn
    simp [List.take_take, Nat.min_eq_left hmn]
  | cons x t ih =>
    intro ys hmn
    cases m with
    | zero => simp
    | succ k =>
      simp only [List.cons_append, List.take_succ_cons]
      rw [ih k ys (Nat.le_of_succ_le hmn)]

/-- The stored list after one `updateMemory`: the new labels in supplied
order, then the old list, truncated to 20. -/
theorem updateMemory_lcOf (now : Nat) (sessionId : String)
    (records : List ClassificationRecord)
    (storage : List (String × ContextMemory)) :
    lcOf (updateMemory now sessionId records storage) sessionId =
      (recLabels records ++ lcOf storage sessionId).take 20 := by
  unfold updateMemory lcOf recLabels
  rw [storeLookup_storeSet_self]
  cases h : storeLookup storage sessionId <;> simp [h, Option.getD,
    emptyMemory]

/-- `updateMemory` does not touch other sessions. -/
theorem updateMemory_other (now : Nat) (sessionId other : String)
    (records : List ClassificationRecord)
    (storage : List (String × ContextMemory)) (h : other ≠ sessionId) :
    storeLookup (updateMemory now sessionId records storage) other =
      storeLookup storage other := by
  unfold updateMemory
  exact storeLookup_storeSet_other _ _ _ _ h

/-- The 20-entry bound holds for every stored session after one update. -/
theorem updateMemory_bound (now : Nat) (sessionId : String)
    (records : List ClassificationRecord)
    (storage : List (String × ContextMemory))
    (h : ∀ sid mem, storeLookup storage sid = some mem →
      mem.data.lastClassifications.length ≤ 20) :
    ∀ sid mem, storeLookup (updateMemory now sessionId records storage) sid =
      some mem → mem.data.lastClassifications.length ≤ 20 := by
  intro sid mem hm
  by_cases e : sid = sessionId
  · subst e
    unfold updateMemory at hm
    rw [storeLookup_storeSet_self] at hm
    cases hm
    exact List.length_take_le 20 _
  · rw [updateMemory_other now sessionId sid records storage e] at hm
    exact h sid mem hm

/-- The bound propagates through any call sequence. -/
theorem applyCalls_bound :
    ∀ (calls : List (Nat × String × List ClassificationRecord))
      (storage : List (String × ContextMemory)),
      (∀ sid mem, storeLookup storage sid = some mem →
        mem.data.lastClassifications.length ≤ 20) →
      ∀ sid mem, storeLookup (applyCalls calls storage) sid = some mem →
        mem.data.lastClassifications.length ≤ 20
  | [], _, h => h
  | c :: cs, storage, h =>
    applyCalls_bound cs (updateMemory c.1 c.2.1 c.2.2 storage)
      (updateMemory_bound c.1 c.2.1 c.2.2 storage h)

/-- Content of the stored list after a batch sequence on one session. -/
theorem applyBatches_lcOf (sessionId : String) :
    ∀ (batches : List (Nat × List ClassificationRecord))
      (storage : List (String × ContextMemory)),
      lcOf storage sessionId =
        (lcOf storage sessionId).take 20 →
      lcOf (applyBatches sessionId batches storage) sessionId =
        (newestBatchFirst batches ++ lcOf storage sessionId).take 20
  | [], storage, h => by
    simp only [applyBatches, List.foldl_nil, newestBatchFirst]
    simpa using h
  | b :: bs, storage, h => by
    have step := updateMemory_lcOf b.1 sessionId b.2 storage
    have ihx := applyBatches_lcOf sessionId bs
      (updateMemory b.1 sessionId b.2 storage)
      (by rw [step]; simp [List.take_take])
    show lcOf (applyBatches sessionId bs
      (updateMemory b.1 sessionId b.2 storage)) sessionId = _
    rw [ihx, step,
      take_append_take 20 20 (newestBatchFirst bs)
        (recLabels b.2 ++ lcOf storage sessionId) (Nat.le_refl 20),
      show newestBatchFirst (b :: bs) =
        newestBatchFirst bs ++ recLabels b.2 from by
          simp [newestBatchFirst],
      List.append_assoc]

/-- C7, counterexample: one `updateMemory` call on a fresh manager with two
records — `"أ"` labelled `character` finalized at time 1, then `"ب"`
labelled `dialogue` finalized at time 2 — stores
`["character", "dialogue"]`: the head is the label of the OLDER record, so
the list is not ordered newest-first. -/
theorem C7_newest_first_counterexample :
    (storeLookup
        (updateMemory 9 "s"
          [{ line := "أ", classification := "character", timestamp := 1 },
           { line := "ب", classification := "dialogue", timestamp := 2 }] [])
        "s").map (fun m => m.data.lastClassifications) =
      some ["character", "dialogue"] :=
  rfl

/-- C7, amended: after any finite sequence of `updateMemory` calls, every
session's stored `lastClassifications` has length at most 20, and for a
single session its content is exactly the first 20 labels of the
newest-BATCH-first concatenation: the most recent call's labels first,
each batch kept in the order its records were supplied (so within a batch
the earliest-finalized record's label comes first, not the newest). -/
theorem C7_memory_bound_and_order :
    (∀ (calls : List (Nat × String × List ClassificationRecord)) (sid : String)
      (mem : ContextMemory), storeLookup (applyCalls calls []) sid = some mem →
        mem.data.lastClassifications.length ≤ 20) ∧
    (∀ (sessionId : String)
      (batches : List (Nat × List ClassificationRecord)),
      lcOf (applyBatches sessionId batches []) sessionId =
        (newestBatchFirst batches).take 20) := by
  constructor
  · intro calls sid mem hm
    exact applyCalls_bound calls [] (fun s m h => by
      simp [storeLookup] at h) sid mem hm
  · intro sessionId batches
    have h := applyBatches_lcOf sessionId batches [] (by rfl)
    simpa [lcOf, storeLookup] using h

/-- Witness for C7 on a concrete two-call sequence. -/
theorem C7_memory_bound_and_order_witness :
    ((applyCalls [(3, "s", [⟨"أ", "character", 1⟩]),
        (5, "s", [⟨"ب", "dialogue", 2⟩, ⟨"ج", "action", 3⟩])] []).map
      (fun p => p.2.data.lastClassifications.length ≤ 20) =
        [True]) ∧
    lcOf (applyBatches "s" [(3, [⟨"أ", "character", 1⟩]),
        (5, [⟨"ب", "dialogue", 2⟩, ⟨"ج", "action", 3⟩])] []) "s" =
      ["dialogue", "action", "character"] := by
  constructor
  · have hb := C7_memory_bound_and_order.1
      [(3, "s", [⟨"أ", "character", 1⟩]),
       (5, "s", [⟨"ب", "dialogue", 2⟩, ⟨"ج", "action", 3⟩])] "s"
    have hlook : storeLookup (applyCalls [(3, "s", [⟨"أ", "character", 1⟩]),
        (5, "s", [⟨"ب", "dialogue", 2⟩, ⟨"ج", "action", 3⟩])] []) "s" =
        some (ContextMemory.mk "s" 5
          (MemoryData.mk ["أ"] [] ["dialogue", "action", "character"]
            [("أ", 1)])) := by rfl
    have hlen := hb _ hlook
    simp only [show (applyCalls [(3, "s", [⟨"أ", "character", 1⟩]),
        (5, "s", [⟨"ب", "dialogue", 2⟩, ⟨"ج", "action", 3⟩])] []) =
      [("s", ContextMemory.mk "s" 5
        (MemoryData.mk ["أ"] [] ["dialogue", "action", "character"]
          [("أ", 1)]))] from rfl, List.map_cons, List.map_nil]
    simp [hlen]
  · have h := C7_memory_bound_and_order.2 "s"
      [(3, [⟨"أ", "character", 1⟩]),
       (5, [⟨"ب", "dialogue", 2⟩, ⟨"ج", "action", 3⟩])]
    rw [h]
    rfl

/-! ### Deep-copy isolation (claim C10) -/

namespace MemStore

/-- Setting a key in the table makes it readable. -/
theorem tblLookup_tblSet_self (tbl : List (String × Nat))
    (sessionId : String) (a : Nat) :
    tblLookup (tblSet tbl sessionId a) sessionId = some a := by
  induction tbl with
  | nil => simp [tblSet, tblLookup]
  | cons hd tl ih =>
    by_cases h1 : hd.1 = sessionId
    · simp [tblSet, tblLookup, h1]
    · simp only [tblSet, if_neg h1, tblLookup, List.find?_cons]
      have h1d : (decide (hd.1 = sessionId)) = false := by simp [h1]
      rw [h1d]
      exact ih

/-- Setting one key in the table leaves other keys unchanged. -/
theorem tblLookup_tblSet_other (tbl : List (String × Nat))
    (sessionId other : String) (a : Nat) (h : other ≠ sessionId) :
    tblLookup (tblSet tbl sessionId a) other = tblLookup tbl other := by
  induction tbl with
  | nil => simp [tblSet, tblLookup, Ne.symm h]
  | cons hd tl ih =>
    by_cases h1 : hd.1 = sessionId
    · simp only [tblSet, if_pos h1, tblLookup, List.find?_cons]
      have hsd : (decide (sessionId = other)) = false := by simp [Ne.symm h]
      have hhd : (decide (hd.1 = other)) = false := by
        rw [h1]; simp [Ne.symm h]
      rw [hsd, hhd]
    · simp only [tblSet, if_neg h1, tblLookup, List.find?_cons]
      by_cases h5 : hd.1 = other
      · simp [h5]
      · have h5d : (decide (hd.1 = other)) = false := by simp [h5]
        rw [h5d]
        exact ih

/-- Reads below the old length see through a heap extension. -/
theorem get?_append_lt {heap : List ContextMemory} {v : ContextMemory}
    {b : Nat} (h : b < heap.length) :
    (heap ++ [v]).get? b = heap.get? b :=
  List.get?_append h

end MemStore

/-- C10: the manager's store is isolated by deep copies.
(1) `loadContext` changes no session's stored contents;
(2) mutating the fresh record returned by `loadContext` changes no
session's stored contents;
(3) `saveContext` changes no OTHER session's stored contents;
(4) `saveContext` stores exactly the value the caller's record held;
(5) mutating the caller's record after `saveContext` returns — any record
not aliased with a stored cell, as every `loadContext` result is — changes
no session's stored contents.  So the store changes only through
`saveContext` (including `updateMemory`, which ends in `saveContext`). -/
theorem C10_deep_copy_isolation (st : MemStore.StoreState)
    (hwf : MemStore.WF st) :
    (∀ sid sid', MemStore.storedValue sid' (MemStore.loadContext sid st).2 =
      MemStore.storedValue sid' st) ∧
    (∀ sid a f sid', (MemStore.loadContext sid st).1 = some a →
      MemStore.storedValue sid'
          (MemStore.mutate a f (MemStore.loadContext sid st).2) =
        MemStore.storedValue sid' st) ∧
    (∀ sid a sid', sid' ≠ sid →
      MemStore.storedValue sid' (MemStore.saveContext sid a st) =
        MemStore.storedValue sid' st) ∧
    (∀ sid a, MemStore.storedValue sid (MemStore.saveContext sid a st) =
      some ((st.heap.get? a).getD MemStore.dummy)) ∧
    (∀ sid a f sid', a < st.heap.length →
      (∀ s, MemStore.tblLookup st.tbl s ≠ some a) →
      MemStore.storedValue sid'
          (MemStore.mutate a f (MemStore.saveContext sid a st)) =
        MemStore.storedValue sid' (MemStore.saveContext sid a st)) := by
  refine ⟨?_, ?_, ?_, ?_, ?_⟩
  · intro sid sid'
    unfold MemStore.loadContext
    cases hl : MemStore.tblLookup st.tbl sid with
    | none => rfl
    | some a =>
      unfold MemStore.storedValue
      cases hl' : MemStore.tblLookup st.tbl sid' with
      | none => rfl
      | some b => exact MemStore.get?_append_lt (hwf sid' b hl')
  · intro sid a f sid' hla
    unfold MemStore.loadContext at hla ⊢
    cases hl : MemStore.tblLookup st.tbl sid with
    | none => rw [hl] at hla; cases hla
    | some a₀ =>
      rw [hl] at hla
      cases hla
      unfold MemStore.mutate MemStore.storedValue
      cases hl' : MemStore.tblLookup st.tbl sid' with
      | none => rfl
      | some b =>
        have hb : b < st.heap.length := hwf sid' b hl'
        show ((st.heap ++ [_]).set st.heap.length _).get? b = _
        rw [List.get?_set_ne _ _ (Nat.ne_of_lt hb).symm,
          MemStore.get?_append_lt hb]
  · intro sid a sid' hne
    unfold MemStore.saveContext MemStore.storedValue
    rw [MemStore.tblLookup_tblSet_other st.tbl sid sid' _ hne]
    cases hl' : MemStore.tblLookup st.tbl sid' with
    | none => rfl
    | some b => exact MemStore.get?_append_lt (hwf sid' b hl')
  · intro sid a
    unfold MemStore.saveContext MemStore.storedValue
    rw [MemStore.tblLookup_tblSet_self]
    exact List.get?_concat_length _ _
  · intro sid a f sid' ha hnal
    unfold MemStore.saveContext MemStore.mutate MemStore.storedValue
    simp only
    by_cases he : sid' = sid
    · subst he
      rw [MemStore.tblLookup_tblSet_self]
      show ((st.heap ++ [_]).set a _).get? st.heap.length = _
      rw [List.get?_set_ne _ _ (Nat.ne_of_lt ha)]
    · rw [MemStore.tblLookup_tblSet_other st.tbl sid sid' _ he]
      cases hl' : MemStore.tblLookup st.tbl sid' with
      | none => rfl
      | some b =>
        have hba : b ≠ a := fun hba => hnal sid' (hba ▸ hl')
        show ((st.heap ++ [_]).set a _).get? b = (st.heap ++ [_]).get? b
        rw [List.get?_set_ne _ _ (fun hab => hba hab.symm)]

/-- Lookup in a one-entry table only ever returns that entry's address. -/
theorem tblLookup_singleton (sid₀ : String) (a : Nat) (s : String) (b : Nat)
    (h : MemStore.tblLookup [(sid₀, a)] s = some b) : b = a := by
  unfold MemStore.tblLookup at h
  by_cases hs : sid₀ = s
  · simp [List.find?_cons, hs] at h
    exact h.symm
  · simp [List.find?_cons, hs] at h

/-- A store with one session stored at address 0. -/
def storeSt₀ : MemStore.StoreState :=
  { heap := [emptyMemory "s" 0], tbl := [("s", 0)] }

/-- The state after the caller obtained its copy via `loadContext`. -/
def storeSt₁ : MemStore.StoreState := (MemStore.loadContext "s" storeSt₀).2

/-- A caller-side mutation of a record. -/
def memBump : ContextMemory → ContextMemory :=
  fun m => { m with lastModified := m.lastModified + 1 }

/-- Witness for C10: concretely, mutating the record obtained from
`loadContext` (address 1) does not change the stored record of session
`"s"`, and mutating the record passed to `saveContext` after the save does
not change the stored contents either. -/
theorem C10_deep_copy_isolation_witness :
    (MemStore.storedValue "s" (MemStore.mutate 1 memBump storeSt₁) =
      MemStore.storedValue "s" storeSt₀) ∧
    (MemStore.storedValue "s"
        (MemStore.mutate 1 memBump (MemStore.saveContext "s" 1 storeSt₁)) =
      MemStore.storedValue "s" (MemStore.saveContext "s" 1 storeSt₁)) := by
  have hwf₀ : MemStore.WF storeSt₀ := by
    intro sid x h
    have hx := tblLookup_singleton "s" 0 sid x h
    subst hx
    decide
  have hwf₁ : MemStore.WF storeSt₁ := by
    intro sid x h
    have hx := tblLookup_singleton "s" 0 sid x h
    subst hx
    decide
  constructor
  · exact (C10_deep_copy_isolation storeSt₀ hwf₀).2.1 "s" 1 memBump "s" rfl
  · exact (C10_deep_copy_isolation storeSt₁ hwf₁).2.2.2.2 "s" 1 memBump "s"
      (by decide)
      (fun s h => absurd (tblLookup_singleton "s" 0 s 1 h) (by decide))

end Filmylane
